import Mathlib

/-!
Shallow embedding of the ai-prompt-templates CLI (TypeScript sources) and
verification of its specification claims.

Source files embedded here:
  src/types/index.ts              (config validators, error classes)
  src/utils/parameter-collection.ts (collectParameters and helpers)
  src/utils/template-generation.ts  (TemplateGenerator)
  src/utils/template-registry.ts    (TemplateRegistry.discover)
JavaScript runtime primitives (typeof, truthiness, Number(), String(),
toLowerCase) are modelled explicitly where the code relies on them.
-/

namespace PromptCLI

/-! ## JavaScript value model for primitive runtime values

Raw answers coming back from inquirer prompts, parameter values and
coercion targets are JS primitives: undefined, null, booleans, numbers
(which may be NaN) and strings.  Numbers are modelled as rationals plus a
NaN marker; the fragment of JS number semantics exercised by this code
(Number() on decimal strings, comparison with 0, isNaN) is faithful on
that domain. -/

inductive JSNum where
  | nan : JSNum
  | val (q : ℚ) : JSNum
deriving DecidableEq

inductive JSPrim where
  | undefined : JSPrim
  | nullv : JSPrim
  | bool (b : Bool) : JSPrim
  | num (n : JSNum) : JSPrim
  | str (s : String) : JSPrim
deriving DecidableEq

/-- JS `typeof` on the primitive values modelled here. -/
def typeofStr : JSPrim → String
  | .undefined => "undefined"
  | .nullv => "object"
  | .bool _ => "boolean"
  | .num _ => "number"
  | .str _ => "string"

/-- JS whitespace class (ASCII fragment of the regex class
backslash-s used by the cleanup regexes and by Number()). -/
def isWS (c : Char) : Bool :=
  c = ' ' || c = '\t' || c = '\n' || c = '\r' || c = '\x0b' || c = '\x0c'

/-- Space or tab, the character class of the third cleanup regex. -/
def isST (c : Char) : Bool :=
  c = ' ' || c = '\t'

/-- Numeric value of a digit list, most significant first. -/
def digitsVal (l : List Char) : Nat :=
  l.foldl (fun a c => a * 10 + (c.toNat - 48)) 0

/-- Decimal literal (digits with an optional single dot) as a rational;
none means NaN. -/
def parseDec (l : List Char) : Option ℚ :=
  let ip := l.takeWhile Char.isDigit
  match l.dropWhile Char.isDigit with
  | [] => if ip.isEmpty then none else some (digitsVal ip)
  | c :: fp =>
    if c = '.' && fp.all Char.isDigit && !(ip.isEmpty && fp.isEmpty) then
      some ((digitsVal ip : ℚ) + (digitsVal fp : ℚ) / (10 : ℚ) ^ fp.length)
    else
      none

/-- JS ToNumber on a string: whitespace-trimmed; empty means 0; an
optionally signed decimal literal parses; anything else is NaN.  (The
hex / exponent / Infinity forms of the JS grammar are not used by this
program and are not modelled.) -/
def strToNumber (s : String) : JSNum :=
  let t := ((s.data.dropWhile isWS).reverse.dropWhile isWS).reverse
  match t with
  | [] => .val 0
  | '-' :: r => match parseDec r with
    | some q => .val (-q)
    | none => .nan
  | '+' :: r => match parseDec r with
    | some q => .val q
    | none => .nan
  | _ => match parseDec t with
    | some q => .val q
    | none => .nan

/-- JS `Number(x)` on the modelled primitives. -/
def jsToNumber : JSPrim → JSNum
  | .undefined => .nan
  | .nullv => .val 0
  | .bool true => .val 1
  | .bool false => .val 0
  | .num n => n
  | .str s => strToNumber s

/-- JS `String(x)` on the modelled primitives.  Number rendering is only
exercised on integral values by this program; those are printed exactly. -/
def jsToString : JSPrim → String
  | .undefined => "undefined"
  | .nullv => "null"
  | .bool true => "true"
  | .bool false => "false"
  | .num .nan => "NaN"
  | .num (.val q) => if q.den = 1 then toString q.num else toString q
  | .str s => s

/-- ASCII lowercasing of one character (the fragment of JS `toLowerCase`
these templates exercise). -/
def charToLower (c : Char) : Char :=
  if 'A' ≤ c ∧ c ≤ 'Z' then Char.ofNat (c.toNat + 32) else c

/-- JS `s.toLowerCase()` (ASCII fragment). -/
def toLowerJS (s : String) : String :=
  ⟨s.data.map charToLower⟩

/-- JS truthiness `Boolean(x)` on the modelled primitives. -/
def truthy : JSPrim → Bool
  | .undefined => false
  | .nullv => false
  | .bool b => b
  | .num .nan => false
  | .num (.val q) => decide (q ≠ 0)
  | .str s => decide (s ≠ "")

instance {α β : Type} [DecidableEq α] [DecidableEq β] : DecidableEq (Except α β) := fun
  | .ok a, .ok b => decidable_of_iff (a = b) (by simp)
  | .ok _, .error _ => isFalse (by simp)
  | .error _, .ok _ => isFalse (by simp)
  | .error a, .error b => decidable_of_iff (a = b) (by simp)

/-! ## Data model (src/types/index.ts, typed level)

`ParameterConfig.defaultValue` is an optional string in the source
(`defaultValue?: string`); absence is modelled as `none`. -/

inductive ParamType where
  | string : ParamType
  | number : ParamType
  | boolean : ParamType
deriving DecidableEq

structure ParameterConfig where
  description : String
  required : Bool
  defaultValue : Option String
  type : ParamType
deriving DecidableEq

structure TemplateConfig where
  name : String
  description : String
  template : String
  parameters : List (String × ParameterConfig)
deriving DecidableEq

/-- `ParameterValidationError(message, parameterName)` from src/types/index.ts.
All errors thrown inside parameter collection are of this class. -/
inductive CollectError where
  | paramValidation (message : String) (parameterName : String) : CollectError
deriving DecidableEq

/-! ## Parameter collection (src/utils/parameter-collection.ts)

The interactive inquirer layer is IO; collection is modelled as a function
of the template configuration and the raw answers inquirer returned
(`rawAnswers`), exactly the data `validateAndConvertParameters` consumes.
Raw answers are JS primitives: a missing key reads as `undefined`. -/

/-- `rawAnswers[paramName]`: property read, `undefined` when absent. -/
def rawOf (rawAnswers : List (String × JSPrim)) (name : String) : JSPrim :=
  (rawAnswers.lookup name).getD .undefined

/-- `value === "" || value === null || value === undefined`, the emptiness
test of `validateParameterValue`. -/
def isEmptyVal (v : JSPrim) : Bool :=
  v = .str "" || v = .nullv || v = .undefined

/-- `rawValue === "" || rawValue === undefined`, the blank test of the
default-substitution and skip steps in `validateAndConvertParameters`. -/
def isBlank (v : JSPrim) : Bool :=
  v = .str "" || v = .undefined

/-- `validateParameterValue(paramName, value, config)` (lines 208-264 of
parameter-collection.ts).  Throws are `Except.error`.  The `default:` arm
of the source switch (unsupported type) is unreachable in the typed model
because `ParamType` is exactly the three supported tags. -/
def validateParameterValue (paramName : String) (value : JSPrim)
    (config : ParameterConfig) : Except CollectError Unit :=
  if config.required && isEmptyVal value then
    .error (.paramValidation ("Parameter '" ++ paramName ++ "' is required") paramName)
  else if !config.required && isEmptyVal value then
    .ok ()
  else
    match config.type with
    | .string =>
      if typeofStr value = "string" then .ok ()
      else .error (.paramValidation ("Parameter '" ++ paramName ++ "' must be a string") paramName)
    | .number =>
      if jsToNumber value = .nan then
        .error (.paramValidation ("Parameter '" ++ paramName ++ "' must be a valid number") paramName)
      else .ok ()
    | .boolean =>
      if typeofStr value = "boolean" then .ok ()
      else .error (.paramValidation ("Parameter '" ++ paramName ++ "' must be a boolean") paramName)

/-- The default-substitution step of `validateAndConvertParameters`
(lines 283-291): `finalValue` is `defaultValue` when the raw value is
blank, the parameter is optional and a default exists; otherwise the raw
value. -/
def finalValueOf (config : ParameterConfig) (rawValue : JSPrim) : JSPrim :=
  match config.defaultValue with
  | some d => if isBlank rawValue && !config.required then .str d else rawValue
  | none => rawValue

/-- The type-conversion switch of `validateAndConvertParameters`
(lines 298-348) applied to the substituted `finalValue`. -/
def convertValue (paramName : String) (config : ParameterConfig)
    (finalValue : JSPrim) : Except CollectError JSPrim :=
  match config.type with
  | .string => .ok (.str (jsToString finalValue))
  | .number =>
    match jsToNumber finalValue with
    | .nan => .error (.paramValidation
        ("Invalid number value for parameter '" ++ paramName ++ "': " ++ jsToString finalValue)
        paramName)
    | .val q => .ok (.num (.val q))
  | .boolean =>
    match finalValue with
    | .bool b => .ok (.bool b)
    | .str s =>
      let boolValue := toLowerJS s
      if boolValue = "true" || boolValue = "yes" || boolValue = "1" then
        .ok (.bool true)
      else if boolValue = "false" || boolValue = "no" || boolValue = "0" then
        .ok (.bool false)
      else
        .error (.paramValidation
          ("Invalid boolean value for parameter '" ++ paramName ++ "': " ++ jsToString finalValue)
          paramName)
    | v => .ok (.bool (truthy v))

/-- One iteration of the `validateAndConvertParameters` loop for parameter
`paramName` with configuration `config` and raw value `rawValue`
(lines 279-352): default substitution, the optional-blank skip (`.ok none`),
type conversion, and the final `validateParameterValue` call on the
converted value. -/
def convertParam (paramName : String) (config : ParameterConfig)
    (rawValue : JSPrim) : Except CollectError (Option JSPrim) :=
  let finalValue := finalValueOf config rawValue
  if !config.required && isBlank finalValue then
    .ok none
  else
    match convertValue paramName config finalValue with
    | .error e => .error e
    | .ok converted =>
      match validateParameterValue paramName converted config with
      | .error e => .error e
      | .ok _ => .ok (some converted)

/-- `validateAndConvertParameters(rawAnswers, parameterConfigs)`
(lines 273-355): iterate the configured parameters in order, assembling
the collected entries; a skipped optional parameter contributes no key;
the first thrown error aborts the whole loop. -/
def validateAndConvertParameters (rawAnswers : List (String × JSPrim)) :
    List (String × ParameterConfig) → Except CollectError (List (String × JSPrim))
  | [] => .ok []
  | (paramName, config) :: rest =>
    match convertParam paramName config (rawOf rawAnswers paramName) with
    | .error e => .error e
    | .ok none => validateAndConvertParameters rawAnswers rest
    | .ok (some v) =>
      match validateAndConvertParameters rawAnswers rest with
      | .error e => .error e
      | .ok tail => .ok ((paramName, v) :: tail)

structure CollectionResult where
  parameters : List (String × JSPrim)
  success : Bool
  error : Option String
deriving DecidableEq

/-- The message carried by a `CollectError`. -/
def CollectError.message : CollectError → String
  | .paramValidation m _ => m

/-- The parameter name carried by a `CollectError`. -/
def CollectError.pname : CollectError → String
  | .paramValidation _ p => p

/-- `collectParameters(templateConfig, options)` (lines 46-105) as a
function of the raw answers: no parameters collects trivially; otherwise
the converted parameters on success, and on a thrown error the catch
block returns `parameters = {}` with `success = false` and the message. -/
def collectParameters (templateConfig : TemplateConfig)
    (rawAnswers : List (String × JSPrim)) : CollectionResult :=
  if templateConfig.parameters.isEmpty then
    ⟨[], true, none⟩
  else
    match validateAndConvertParameters rawAnswers templateConfig.parameters with
    | .ok parameters => ⟨parameters, true, none⟩
    | .error e => ⟨[], false, some e.message⟩

/-! ## Prompt construction (`createPromptsFromParameters`, lines 114-177) -/

structure CollectionOptions where
  showDescriptions : Bool
  useColors : Bool
  promptMsgPre : String

inductive PromptKind where
  | confirm : PromptKind
  | input : PromptKind
deriving DecidableEq

/-- An inquirer question as this code builds it.  `default` is the
`default:` field (a JS value; `undefined` when absent); `hasNumberFilter`
records that the number arm installs its blank-to-default `filter`
closure, whose behaviour is `numberFilter` below. -/
structure Prompt where
  name : String
  message : String
  kind : PromptKind
  default : JSPrim
  hasNumberFilter : Bool
deriving DecidableEq

/-- The `filter` closure of the number arm (lines 160-165): blank input
with a configured default yields the default, anything else passes
through. -/
def numberFilter (config : ParameterConfig) (input : String) : JSPrim :=
  match config.defaultValue with
  | some d => if input.trim = "" then .str d else .str input
  | none => .str input

/-- The prompt message (lines 125-136): name, optional description,
default hint only for optional parameters with a default, and a star for
required ones. -/
def promptMessage (options : CollectionOptions) (paramName : String)
    (config : ParameterConfig) : String :=
  options.promptMsgPre ++ paramName
    ++ (if options.showDescriptions && config.description ≠ "" then
          " (" ++ config.description ++ ")" else "")
    ++ (match config.defaultValue with
        | some d => if !config.required then " [" ++ d ++ "]" else ""
        | none => "")
    ++ (if config.required then " *" else "")

/-- One entry of `createPromptsFromParameters` (lines 122-176). -/
def createPrompt (options : CollectionOptions) (paramName : String)
    (config : ParameterConfig) : Prompt :=
  let base : String := promptMessage options paramName config
  match config.type with
  | .boolean =>
    ⟨paramName, base, .confirm,
      (match config.defaultValue with
       | some d => .bool (d = "true")
       | none => .undefined), false⟩
  | .number =>
    ⟨paramName, base, .input,
      (match config.defaultValue with
       | some d => .str d
       | none => .undefined), true⟩
  | .string =>
    ⟨paramName, base, .input,
      (match config.defaultValue with
       | some d => .str d
       | none => .undefined), false⟩

def createPromptsFromParameters (parameterEntries : List (String × ParameterConfig))
    (options : CollectionOptions) : List Prompt :=
  parameterEntries.map fun e => createPrompt options e.1 e.2

/-! ## Output cleanup (`TemplateGenerator.cleanupOutput`, lines 300-305)

Three chained global regex replacements over the rendered string:
  1. an occurrence of newline-ws*-newline-ws*-newline is replaced by two
     newlines; the greedy leftmost match starts at the first newline of a
     whitespace run holding at least three newlines and ends at the run's
     last newline;
  2. leading and trailing whitespace is removed;
  3. a run of spaces and tabs is replaced by a single space.
Replacement scans the original text left to right without rescanning
replaced output, which the recursions below mirror. -/

/-- Index of the last newline of a character list, if any. -/
def lastNL : List Char → Option Nat
  | [] => none
  | c :: rest =>
    match lastNL rest with
    | some i => some (i + 1)
    | none => if c = '\n' then some 0 else none

/-- First replacement, structurally recursive on a fuel bound (any fuel at
least the list length computes the replacement; each step consumes at
least one character): each greedy leftmost match of the pattern
newline-ws*-newline-ws*-newline becomes two newlines.  A match anchored at
a newline exists exactly when the whitespace run that follows holds two
more newlines, and it extends to the last newline of that run. -/
def collapseNewlinesF : Nat → List Char → List Char
  | _, [] => []
  | 0, l => l
  | fuel + 1, c :: rest =>
    if c = '\n' ∧ 2 ≤ (rest.takeWhile isWS).count '\n' then
      match lastNL (rest.takeWhile isWS) with
      | some i => '\n' :: '\n' :: collapseNewlinesF fuel (rest.drop (i + 1))
      | none => c :: collapseNewlinesF fuel rest
    else
      c :: collapseNewlinesF fuel rest

def collapseNewlines (l : List Char) : List Char :=
  collapseNewlinesF l.length l

/-- Second replacement: strip leading and trailing whitespace. -/
def trimWS (l : List Char) : List Char :=
  ((l.dropWhile isWS).reverse.dropWhile isWS).reverse

/-- Third replacement, fuelled like the first: each run of spaces and tabs
becomes one space. -/
def collapseSTF : Nat → List Char → List Char
  | _, [] => []
  | 0, l => l
  | fuel + 1, c :: rest =>
    if isST c then ' ' :: collapseSTF fuel (rest.dropWhile isST)
    else c :: collapseSTF fuel rest

def collapseST (l : List Char) : List Char :=
  collapseSTF l.length l

def cleanupOutput (output : List Char) : List Char :=
  collapseST (trimWS (collapseNewlines output))

def cleanupOutputStr (s : String) : String :=
  ⟨cleanupOutput s.data⟩

/-- What the first replacement does to one maximal whitespace run: a run
holding three or more newlines keeps its segment before the first newline,
contributes exactly two newlines, and keeps its segment after the last
newline; any other run is untouched. -/
def collapseRun (w : List Char) : List Char :=
  if 3 ≤ w.count '\n' then
    w.takeWhile (· ≠ '\n') ++ '\n' :: '\n' ::
      (match lastNL w with
       | some i => w.drop (i + 1)
       | none => [])
  else w

/-! ## Template generation (src/utils/template-generation.ts)

The Handlebars engine is external to the repository: a compiled delegate
is identified by the source string it was compiled from, and applying it
is an evaluation oracle `eval` passed to the render functions (`none`
models a throw during evaluation).  Helper functions are opaque values
identified by a number. -/

structure GenerationOptions where
  includeHelpers : Option Bool
  customHelpers : Option (List (String × Nat))
  strict : Option Bool
  maxTemplateSize : Option Nat
  noEscape : Option Bool
deriving DecidableEq

/-- `{ ...this.options, ...options }`: per-key, the per-call options win
where present. -/
def mergeOptions (base overrides : GenerationOptions) : GenerationOptions :=
  ⟨overrides.includeHelpers <|> base.includeHelpers,
   overrides.customHelpers <|> base.customHelpers,
   overrides.strict <|> base.strict,
   overrides.maxTemplateSize <|> base.maxTemplateSize,
   overrides.noEscape <|> base.noEscape⟩

/-- The process-global Handlebars helper table.  `registerHelper`
overwrites: the most recent registration of a name wins (lookup finds the
head first). -/
structure HandlebarsEnv where
  helpers : List (String × Nat)
deriving DecidableEq

def hbRegisterHelper (env : HandlebarsEnv) (name : String) (helper : Nat) : HandlebarsEnv :=
  ⟨(name, helper) :: env.helpers⟩

def hbLookup (env : HandlebarsEnv) (name : String) : Option Nat :=
  env.helpers.lookup name

/-- `TemplateGenerator` instance state: the constructor options, the
per-instance compiled-template cache (name to compiled source) and the
per-instance `registeredHelpers` name set. -/
structure TemplateGenerator where
  options : GenerationOptions
  compiledTemplates : List (String × String)
  registeredHelpers : List String
deriving DecidableEq

/-- `registerCustomHelpers(helpers)` (lines 312-321): for each helper, a
name already in this instance's `registeredHelpers` set is skipped;
otherwise the helper is registered on the global Handlebars environment
and the name is added to the instance set. -/
def registerCustomHelpers (gen : TemplateGenerator) (env : HandlebarsEnv)
    (helpers : List (String × Nat)) : TemplateGenerator × HandlebarsEnv :=
  helpers.foldl
    (fun st h =>
      if h.1 ∈ st.1.registeredHelpers then st
      else ({ st.1 with registeredHelpers := h.1 :: st.1.registeredHelpers },
            hbRegisterHelper st.2 h.1 h.2))
    (gen, env)

/-- `TemplateGenerationError` / `ValidationError` as thrown by the
generation pipeline. -/
inductive GenError where
  | generation (message : String) (templateName : String) : GenError
  | validation (message : String) : GenError
deriving DecidableEq

def GenError.message : GenError → String
  | .generation m _ => m
  | .validation m => m

/-- `this.options.maxTemplateSize || 100000`: JS or-else on a falsy (zero
or absent) configured size. -/
def maxSizeOf (genOptions : GenerationOptions) : Nat :=
  match genOptions.maxTemplateSize with
  | some m => if m = 0 then 100000 else m
  | none => 100000

/-- `compileTemplate(templateConfig, options)` (lines 149-203): a cached
name returns its cached delegate at once; otherwise an empty (falsy)
template source or a source longer than the configured maximum throws a
`TemplateGenerationError` and caches nothing; otherwise the compiled
delegate is cached under the template name and returned.  The size guard
reads the constructor options, not the merged per-call options. -/
def compileTemplate (gen : TemplateGenerator) (templateConfig : TemplateConfig) :
    Except GenError String × TemplateGenerator :=
  match gen.compiledTemplates.lookup templateConfig.name with
  | some cached => (.ok cached, gen)
  | none =>
    if templateConfig.template = "" then
      (.error (.generation
        ("Invalid template content in '" ++ templateConfig.name
          ++ "': template must be a non-empty string") templateConfig.name), gen)
    else if templateConfig.template.length > maxSizeOf gen.options then
      (.error (.generation
        ("Template '" ++ templateConfig.name ++ "' is too large: "
          ++ toString templateConfig.template.length ++ " characters (max: "
          ++ toString (maxSizeOf gen.options) ++ ")") templateConfig.name), gen)
    else
      (.ok templateConfig.template,
       { gen with compiledTemplates :=
          (templateConfig.name, templateConfig.template) :: gen.compiledTemplates })

/-- The context `prepareContext` builds: the collected parameters spread
into it, the `_template` metadata, and the `_utils` helpers unless
`includeHelpers` is `false`. -/
structure TemplateContext where
  params : List (String × JSPrim)
  templateMeta : Option (String × String)
  hasUtils : Bool
deriving DecidableEq

/-- The `context = {}` of a failed generation. -/
def emptyContext : TemplateContext := ⟨[], none, false⟩

/-- `prepareContext(parameters, templateConfig, options)` (lines 213-256):
builds the context and throws a `ValidationError` when a required
parameter is missing from the collected parameters. -/
def prepareContext (parameters : List (String × JSPrim))
    (templateConfig : TemplateConfig) (options : GenerationOptions) :
    Except GenError TemplateContext :=
  match templateConfig.parameters.find?
      (fun e => e.2.required && !(parameters.lookup e.1).isSome) with
  | some e => .error (.validation
      ("Required parameter '" ++ e.1 ++ "' is missing from context"))
  | none => .ok ⟨parameters, some (templateConfig.name, templateConfig.description),
      !(options.includeHelpers == some false)⟩

/-- `renderTemplate(compiledTemplate, context, options)` (lines 266-292):
apply the delegate; a throw is wrapped in a `TemplateGenerationError`; a
produced string is returned through `cleanupOutput`. -/
def renderTemplate (eval : String → TemplateContext → Option String)
    (compiled : String) (context : TemplateContext) : Except GenError String :=
  match eval compiled context with
  | some output => .ok (cleanupOutputStr output)
  | none => .error (.generation "Template rendering failed"
      (match context.templateMeta with
       | some m => m.1
       | none => "unknown"))

structure GenerationMetadata where
  templateName : String
  parametersUsed : List String
  generationTime : Nat
deriving DecidableEq

structure GenerationResult where
  output : String
  success : Bool
  context : TemplateContext
  error : Option String
  metadata : GenerationMetadata
deriving DecidableEq

/-- The result built by the catch block of `generatePrompt`
(lines 121-139). -/
def failedResult (templateConfig : TemplateConfig)
    (parameters : List (String × JSPrim)) (generationTime : Nat)
    (msg : String) : GenerationResult :=
  ⟨"", false, emptyContext, some msg,
   ⟨templateConfig.name, parameters.map Prod.fst, generationTime⟩⟩

/-- `generatePrompt(templateConfig, parameters, options)` (lines 71-140):
compile, prepare the context, register custom helpers when given, render;
any thrown error lands in the catch block.  `generationTime` stands for
the measured elapsed wall time, identical in both result shapes. -/
def generatePrompt (gen : TemplateGenerator) (env : HandlebarsEnv)
    (templateConfig : TemplateConfig) (parameters : List (String × JSPrim))
    (options : GenerationOptions)
    (eval : String → TemplateContext → Option String)
    (generationTime : Nat) :
    GenerationResult × TemplateGenerator × HandlebarsEnv :=
  let merged := mergeOptions gen.options options
  match compileTemplate gen templateConfig with
  | (.error e, gen1) =>
    (failedResult templateConfig parameters generationTime e.message, gen1, env)
  | (.ok compiled, gen1) =>
    match prepareContext parameters templateConfig merged with
    | .error e =>
      (failedResult templateConfig parameters generationTime e.message, gen1, env)
    | .ok context =>
      let st2 := match merged.customHelpers with
        | some hs => registerCustomHelpers gen1 env hs
        | none => (gen1, env)
      match renderTemplate eval compiled context with
      | .error e =>
        (failedResult templateConfig parameters generationTime e.message, st2.1, st2.2)
      | .ok output =>
        (⟨output, true, context, none,
          ⟨templateConfig.name, parameters.map Prod.fst, generationTime⟩⟩, st2.1, st2.2)

/-! ## Template registry (src/utils/template-registry.ts)

Discovery reads the filesystem; a fresh scan's outcome is the `fresh`
argument.  Template definitions are identified by numbers.  The
`discoveryPromise` deduplication concerns overlapping in-flight async
calls only; between completed calls it is `null` and is elided from this
sequential model. -/

structure DiscoveryResult where
  templates : List (String × Nat)
  errors : List String
deriving DecidableEq

structure TemplateRegistry where
  templates : List (String × Nat)
  lastDiscovery : Option DiscoveryResult
deriving DecidableEq

/-- `TemplateRegistry.discover(force)` (lines 26-48): with a cached result
and no force, return the cache unchanged; otherwise run a fresh discovery,
store it as the cache and the template map, and return it. -/
def TemplateRegistry.discover (reg : TemplateRegistry) (force : Bool)
    (fresh : DiscoveryResult) : DiscoveryResult × TemplateRegistry :=
  match reg.lastDiscovery with
  | some cached => if force then (fresh, ⟨fresh.templates, some fresh⟩) else (cached, reg)
  | none => (fresh, ⟨fresh.templates, some fresh⟩)

/-! ## Shape validators (src/types/index.ts, lines 93-157)

These run on arbitrary JS values (`config: any`), so they are modelled
over a JS value universe with objects and arrays. -/

inductive JSVal where
  | undefined : JSVal
  | nullv : JSVal
  | bool (b : Bool) : JSVal
  | num (n : JSNum) : JSVal
  | str (s : String) : JSVal
  | obj (fields : List (String × JSVal)) : JSVal
  | arr (elems : List JSVal) : JSVal
  | func : JSVal

/-- JS `typeof` over the full value universe. -/
def JSVal.typeof : JSVal → String
  | .undefined => "undefined"
  | .nullv => "object"
  | .bool _ => "boolean"
  | .num _ => "number"
  | .str _ => "string"
  | .obj _ => "object"
  | .arr _ => "object"
  | .func => "function"

def JSVal.isNull : JSVal → Bool
  | .nullv => true
  | _ => false

def JSVal.isUndefined : JSVal → Bool
  | .undefined => true
  | _ => false

/-- Property read `v[k]`: a missing key or a non-object reads as
`undefined`.  Object field lists carry the insertion-ordered own
enumerable properties. -/
def getField (v : JSVal) (k : String) : JSVal :=
  match v with
  | .obj fields => ((fields.lookup k).getD .undefined)
  | _ => .undefined

/-- `Object.entries(v)`: an object's fields; an array's elements keyed by
their decimal index. -/
def jsEntries : JSVal → List (String × JSVal)
  | .obj fields => fields
  | .arr es => es.enum.map fun p => (toString p.1, p.2)
  | _ => []

/-- `Object.values(v)`. -/
def jsValuesList : JSVal → List JSVal
  | .obj fields => fields.map Prod.snd
  | .arr es => es
  | _ => []

/-- `isValidParameterConfig(param)` (lines 93-102). -/
def isValidParameterConfig (param : JSVal) : Bool :=
  (param.typeof == "object") && !param.isNull
    && ((getField param "description").typeof == "string")
    && ((getField param "required").typeof == "boolean")
    && (match getField param "type" with
        | .str s => ["string", "number", "boolean"].contains s
        | _ => false)
    && ((getField param "defaultValue").isUndefined
        || (getField param "defaultValue").typeof == "string")

/-- `isValidTemplateConfig(config)` (lines 107-119). -/
def isValidTemplateConfig (config : JSVal) : Bool :=
  (config.typeof == "object") && !config.isNull
    && (match getField config "name" with
        | .str s => decide (0 < s.length)
        | _ => false)
    && ((getField config "description").typeof == "string")
    && ((getField config "template").typeof == "string")
    && ((getField config "parameters").typeof == "object")
    && !(getField config "parameters").isNull
    && (jsValuesList (getField config "parameters")).all isValidParameterConfig

structure ValidationReport where
  valid : Bool
  errors : List String

/-- The error list `validateTemplateConfig` accumulates past its first
guard, one message per failed check, in push order (lines 134-154). -/
def configShapeErrors (config : JSVal) : List String :=
  (if (match getField config "name" with
       | .str s => decide (0 < s.length)
       | _ => false) then []
   else ["Config must have a non-empty 'name' string"])
  ++ ((if (getField config "description").typeof == "string" then []
       else ["Config must have a 'description' string"])
  ++ ((if (getField config "template").typeof == "string" then []
       else ["Config must have a 'template' string"])
  ++ (if !((getField config "parameters").typeof == "object")
         || (getField config "parameters").isNull then
        ["Config must have a 'parameters' object"]
      else
        (jsEntries (getField config "parameters")).filterMap fun e =>
          if isValidParameterConfig e.2 then none
          else some ("Parameter '" ++ e.1 ++ "' is invalid"))))

/-- `validateTemplateConfig(config)` (lines 124-157): a non-object
short-circuits; otherwise the accumulated error list decides `valid`. -/
def validateTemplateConfig (config : JSVal) : ValidationReport :=
  if !(config.typeof == "object") || config.isNull then
    ⟨false, ["Config must be an object"]⟩
  else
    ⟨(configShapeErrors config).isEmpty, configShapeErrors config⟩

/-! # Claim theorems -/

/-- C8.  For a registry whose discovery already completed, `discover`
without force returns the cached result and leaves the registry unchanged,
and `discover` with force returns the fresh result and replaces both the
cache and the template map with it. -/
theorem discover_cache_semantics (reg : TemplateRegistry)
    (fresh r : DiscoveryResult) (h : reg.lastDiscovery = some r) :
    reg.discover false fresh = (r, reg) ∧
    reg.discover true fresh = (fresh, ⟨fresh.templates, some fresh⟩) := by
  unfold TemplateRegistry.discover
  rw [h]
  exact ⟨rfl, rfl⟩

theorem discover_cache_semantics_witness :
    TemplateRegistry.discover ⟨[("a", 1)], some ⟨[("a", 1)], []⟩⟩ false ⟨[("b", 2)], ["e"]⟩
      = (⟨[("a", 1)], []⟩, ⟨[("a", 1)], some ⟨[("a", 1)], []⟩⟩) ∧
    TemplateRegistry.discover ⟨[("a", 1)], some ⟨[("a", 1)], []⟩⟩ true ⟨[("b", 2)], ["e"]⟩
      = (⟨[("b", 2)], ["e"]⟩, ⟨[("b", 2)], some ⟨[("b", 2)], ["e"]⟩⟩) :=
  discover_cache_semantics ⟨[("a", 1)], some ⟨[("a", 1)], []⟩⟩ ⟨[("b", 2)], ["e"]⟩ ⟨[("a", 1)], []⟩ rfl

/-- C2 counterexample.  Helper-name deduplication is per generator
instance, not process-wide: two fresh `TemplateGenerator` instances both
register the name "shout" on the global Handlebars environment, the
second registration overwriting the first, contradicting the claim that a
subsequent registration of an already-registered name is skipped
process-wide. -/
theorem helper_reregistered_across_instances :
    hbLookup (registerCustomHelpers ⟨⟨none, none, none, none, none⟩, [], []⟩ ⟨[]⟩
        [("shout", 1)]).2 "shout" = some 1 ∧
    hbLookup (registerCustomHelpers ⟨⟨none, none, none, none, none⟩, [], []⟩
        (registerCustomHelpers ⟨⟨none, none, none, none, none⟩, [], []⟩ ⟨[]⟩
          [("shout", 1)]).2
        [("shout", 2)]).2 "shout" = some 2 := by
  exact ⟨rfl, rfl⟩

/-- C2 amended.  Within one `TemplateGenerator` instance a helper name is
registered at most once: a name already in the instance's
`registeredHelpers` set is silently skipped by any later
`registerCustomHelpers` call on that instance, leaving the global
Handlebars binding of that name unchanged (while the name stays in the
instance set). -/
theorem registerCustomHelpers_skips_instance_registered
    (gen : TemplateGenerator) (env : HandlebarsEnv)
    (helpers : List (String × Nat)) (name : String)
    (h : name ∈ gen.registeredHelpers) :
    hbLookup (registerCustomHelpers gen env helpers).2 name = hbLookup env name ∧
    name ∈ (registerCustomHelpers gen env helpers).1.registeredHelpers := by
  induction helpers generalizing gen env with
  | nil => exact ⟨rfl, h⟩
  | cons p rest ih =>
    unfold registerCustomHelpers at ih ⊢
    rw [List.foldl_cons]
    by_cases hp : p.1 ∈ gen.registeredHelpers
    · rw [if_pos hp]
      exact ih gen env h
    · rw [if_neg hp]
      have hne : name ≠ p.1 := fun he => hp (he ▸ h)
      have hmem : name ∈ p.1 :: gen.registeredHelpers := List.mem_cons_of_mem _ h
      have := ih { gen with registeredHelpers := p.1 :: gen.registeredHelpers }
        (hbRegisterHelper env p.1 p.2) hmem
      refine ⟨?_, this.2⟩
      rw [this.1]
      unfold hbRegisterHelper hbLookup
      simp only [List.lookup_cons]
      have hbeq : (name == p.1) = false := by
        simpa using hne
      rw [hbeq]

theorem registerCustomHelpers_skips_instance_registered_witness :
    hbLookup (registerCustomHelpers ⟨⟨none, none, none, none, none⟩, [], ["shout"]⟩
        ⟨[("shout", 1)]⟩ [("shout", 2)]).2 "shout" = hbLookup ⟨[("shout", 1)]⟩ "shout" ∧
    "shout" ∈ (registerCustomHelpers ⟨⟨none, none, none, none, none⟩, [], ["shout"]⟩
        ⟨[("shout", 1)]⟩ [("shout", 2)]).1.registeredHelpers :=
  registerCustomHelpers_skips_instance_registered
    ⟨⟨none, none, none, none, none⟩, [], ["shout"]⟩ ⟨[("shout", 1)]⟩
    [("shout", 2)] "shout" (by simp)

/-- C3 counterexample.  Prompt construction does use the `defaultValue`
of a required parameter: for a required string parameter with default
"x" the built inquirer question carries `default = "x"` (while the same
configuration without a default carries `undefined`), contradicting the
claim that the interactive prompt construction never uses the default of
a required parameter. -/
theorem prompt_default_used_for_required_param :
    (createPrompt ⟨true, true, ""⟩ "p" ⟨"d", true, some "x", .string⟩).default = .str "x" ∧
    (createPrompt ⟨true, true, ""⟩ "p" ⟨"d", true, none, .string⟩).default = .undefined ∧
    (⟨"d", true, some "x", .string⟩ : ParameterConfig).required = true := by
  exact ⟨rfl, rfl, rfl⟩

/-- C3 amended.  For a required parameter the prompt message shows no
default hint (only the optional description and the required star), and
the final-value substitution step of parameter collection never uses the
default: the final value is the raw value unchanged.  However (per the
counterexample) the prompt's `default` field is still populated from
`defaultValue` even when `required` is true. -/
theorem required_param_prompt_and_substitution (options : CollectionOptions)
    (paramName : String) (config : ParameterConfig)
    (h : config.required = true) :
    promptMessage options paramName config
      = options.promptMsgPre ++ paramName
        ++ (if options.showDescriptions && config.description ≠ "" then
              " (" ++ config.description ++ ")" else "")
        ++ " *" ∧
    (∀ raw, finalValueOf config raw = raw) := by
  constructor
  · unfold promptMessage
    rw [h]
    cases config.defaultValue <;> simp
  · intro raw
    unfold finalValueOf
    cases config.defaultValue <;> simp [h]

theorem required_param_prompt_and_substitution_witness :
    promptMessage ⟨true, true, ""⟩ "p" ⟨"d", true, some "x", .string⟩
      = "" ++ "p" ++ (if true && ("d" ≠ "") then " (" ++ "d" ++ ")" else "") ++ " *" ∧
    finalValueOf ⟨"d", true, some "x", .string⟩ (.str "") = .str "" := by
  have h := required_param_prompt_and_substitution ⟨true, true, ""⟩ "p"
    ⟨"d", true, some "x", .string⟩ rfl
  exact ⟨h.1, h.2 (.str "")⟩

/-- C6 counterexample.  A template whose name is already in the
compiled-template cache compiles successfully even when its source
exceeds the configured maximum size: with maximum 5, compiling "t" with
the 2-character source caches it, after which compiling a configuration
named "t" with an 8-character source returns the stale cached delegate
instead of failing, contradicting the claim that every oversized
configuration fails compilation. -/
theorem oversized_template_compiles_when_cached :
    (compileTemplate ⟨⟨none, none, none, some 5, none⟩, [], []⟩ ⟨"t", "", "ab", []⟩).1
      = .ok "ab" ∧
    ("abcdefgh" : String).length
      > maxSizeOf (compileTemplate ⟨⟨none, none, none, some 5, none⟩, [], []⟩
          ⟨"t", "", "ab", []⟩).2.options ∧
    (compileTemplate
        (compileTemplate ⟨⟨none, none, none, some 5, none⟩, [], []⟩ ⟨"t", "", "ab", []⟩).2
        ⟨"t", "", "abcdefgh", []⟩).1 = .ok "ab" := by
  exact ⟨rfl, by decide, rfl⟩

/-- The configured maximum template size is always positive (a zero or
absent option falls back to 100000). -/
theorem maxSizeOf_pos (options : GenerationOptions) : 0 < maxSizeOf options := by
  unfold maxSizeOf
  cases options.maxTemplateSize with
  | none => decide
  | some m =>
    show 0 < if m = 0 then 100000 else m
    split
    · decide
    · omega

/-- C6 amended.  For a template configuration whose name is not yet in
the compiled-template cache and whose source exceeds the configured
maximum size, compilation fails with a `TemplateGenerationError` carrying
the template name, and the cache (indeed the whole generator state) is
unchanged, so nothing is cached under that name. -/
theorem compileTemplate_oversized_uncached_fails (gen : TemplateGenerator)
    (tc : TemplateConfig)
    (hc : gen.compiledTemplates.lookup tc.name = none)
    (hs : tc.template.length > maxSizeOf gen.options) :
    (∃ msg, (compileTemplate gen tc).1 = .error (.generation msg tc.name)) ∧
    (compileTemplate gen tc).2 = gen := by
  have hne : ¬(tc.template = "") := by
    intro he
    rw [he] at hs
    exact absurd hs (Nat.not_lt.mpr (Nat.zero_le _))
  unfold compileTemplate
  rw [hc]
  rw [if_neg hne]
  rw [if_pos hs]
  exact ⟨⟨_, rfl⟩, rfl⟩

/-- Conversion of a non-blank value is unaffected by the default
substitution and skip steps: `convertParam` proceeds with the raw value. -/
theorem convertParam_not_blank (paramName : String) (config : ParameterConfig)
    (rawValue : JSPrim) (hb : isBlank rawValue = false) :
    convertParam paramName config rawValue
      = match convertValue paramName config rawValue with
        | .error e => .error e
        | .ok converted =>
          match validateParameterValue paramName converted config with
          | .error e => .error e
          | .ok _ => .ok (some converted) := by
  have hfv : finalValueOf config rawValue = rawValue := by
    unfold finalValueOf
    cases config.defaultValue with
    | none => rfl
    | some d =>
      rw [hb]
      rfl
  unfold convertParam
  simp only [hfv, hb, Bool.and_false, Bool.false_eq_true, if_false]

/-- A converted boolean value passes the final `validateParameterValue`
call of the loop. -/
theorem validate_converted_boolean (paramName : String) (config : ParameterConfig)
    (ht : config.type = .boolean) (b : Bool) :
    validateParameterValue paramName (.bool b) config = .ok () := by
  unfold validateParameterValue
  have he : isEmptyVal (.bool b) = false := rfl
  rw [he, Bool.and_false, Bool.and_false]
  simp only [if_false, Bool.false_eq_true, ite_false, ht]
  rfl

/-- C4.  Conversion of a boolean-typed parameter: a native boolean passes
through unchanged; a non-blank string is matched case-insensitively
("true"/"yes"/"1" give `true`, "false"/"no"/"0" give `false`, anything
else throws a `ParameterValidationError` carrying the parameter name);
any other raw type (a number, `null`, or — for a required parameter —
`undefined`) is coerced by JS truthiness. -/
theorem boolean_conversion_semantics (paramName : String)
    (config : ParameterConfig) (ht : config.type = .boolean) :
    (∀ b : Bool, convertParam paramName config (.bool b) = .ok (some (.bool b))) ∧
    (∀ s : String, s ≠ "" →
      ((toLowerJS s = "true" ∨ toLowerJS s = "yes" ∨ toLowerJS s = "1") →
        convertParam paramName config (.str s) = .ok (some (.bool true))) ∧
      ((toLowerJS s = "false" ∨ toLowerJS s = "no" ∨ toLowerJS s = "0") →
        convertParam paramName config (.str s) = .ok (some (.bool false))) ∧
      (¬(toLowerJS s = "true" ∨ toLowerJS s = "yes" ∨ toLowerJS s = "1") →
       ¬(toLowerJS s = "false" ∨ toLowerJS s = "no" ∨ toLowerJS s = "0") →
        convertParam paramName config (.str s)
          = .error (.paramValidation
              ("Invalid boolean value for parameter '" ++ paramName ++ "': " ++ s)
              paramName))) ∧
    (∀ n : JSNum, convertParam paramName config (.num n)
        = .ok (some (.bool (truthy (.num n))))) ∧
    (convertParam paramName config .nullv = .ok (some (.bool false))) ∧
    (config.required = true →
      convertParam paramName config .undefined = .ok (some (.bool false))) := by
  obtain ⟨desc, req, dv, ty⟩ := config
  change ty = ParamType.boolean at ht
  subst ht
  have hcv : ∀ v : JSPrim, isBlank v = false →
      (∀ c, convertValue paramName ⟨desc, req, dv, .boolean⟩ v = .ok (.bool c) →
        convertParam paramName ⟨desc, req, dv, .boolean⟩ v = .ok (some (.bool c))) ∧
      (∀ e, convertValue paramName ⟨desc, req, dv, .boolean⟩ v = .error e →
        convertParam paramName ⟨desc, req, dv, .boolean⟩ v = .error e) := by
    intro v hb
    constructor
    · intro c hc
      rw [convertParam_not_blank paramName ⟨desc, req, dv, .boolean⟩ v hb]
      simp only [hc, validate_converted_boolean paramName ⟨desc, req, dv, .boolean⟩ rfl c]
    · intro e he
      rw [convertParam_not_blank paramName ⟨desc, req, dv, .boolean⟩ v hb]
      simp only [he]
  refine ⟨?_, ?_, ?_, ?_, ?_⟩
  · intro b
    exact ((hcv (.bool b) rfl).1 b) rfl
  · intro s hs
    have hb : isBlank (.str s) = false := by
      unfold isBlank
      simp [hs]
    have hcvs : convertValue paramName ⟨desc, req, dv, .boolean⟩ (.str s)
        = (if toLowerJS s = "true" ∨ toLowerJS s = "yes" ∨ toLowerJS s = "1" then
             .ok (.bool true)
           else if toLowerJS s = "false" ∨ toLowerJS s = "no" ∨ toLowerJS s = "0" then
             .ok (.bool false)
           else .error (.paramValidation
              ("Invalid boolean value for parameter '" ++ paramName ++ "': " ++ s)
              paramName)) := by
      show (if (toLowerJS s = "true" || toLowerJS s = "yes" || toLowerJS s = "1" : Bool)
              = true then
              (.ok (.bool true) : Except CollectError JSPrim)
            else if (toLowerJS s = "false" || toLowerJS s = "no" || toLowerJS s = "0" : Bool)
              = true then .ok (.bool false)
            else .error (.paramValidation
              ("Invalid boolean value for parameter '" ++ paramName ++ "': "
                ++ jsToString (.str s)) paramName)) = _
      simp only [Bool.or_eq_true, decide_eq_true_eq, or_assoc, jsToString]
    refine ⟨?_, ?_, ?_⟩
    · intro h1
      refine ((hcv (.str s) hb).1 true) ?_
      rw [hcvs, if_pos h1]
    · intro h2
      refine ((hcv (.str s) hb).1 false) ?_
      rw [hcvs]
      by_cases h1 : toLowerJS s = "true" ∨ toLowerJS s = "yes" ∨ toLowerJS s = "1"
      · rcases h2 with h | h | h <;> rcases h1 with h1 | h1 | h1 <;>
          simp_all
      · rw [if_neg h1, if_pos h2]
    · intro h1 h2
      refine ((hcv (.str s) hb).2 _) ?_
      rw [hcvs, if_neg h1, if_neg h2]
  · intro n
    exact ((hcv (.num n) rfl).1 _) rfl
  · exact ((hcv .nullv rfl).1 _) rfl
  · intro hreq
    change req = true at hreq
    subst hreq
    have hfv : finalValueOf ⟨desc, true, dv, .boolean⟩ .undefined = .undefined := by
      unfold finalValueOf
      cases dv <;> rfl
    unfold convertParam
    simp only [hfv, Bool.not_true, Bool.false_and, Bool.false_eq_true, if_false]
    show (match validateParameterValue paramName (.bool false) ⟨desc, true, dv, .boolean⟩ with
      | .error e => Except.error e
      | .ok _ => Except.ok (some (JSPrim.bool false))) = _
    rw [validate_converted_boolean paramName ⟨desc, true, dv, .boolean⟩ rfl false]

theorem boolean_conversion_semantics_witness :
    convertParam "p" ⟨"d", true, none, .boolean⟩ (.bool false) = .ok (some (.bool false)) ∧
    convertParam "p" ⟨"d", true, none, .boolean⟩ (.str "YeS") = .ok (some (.bool true)) ∧
    convertParam "p" ⟨"d", true, none, .boolean⟩ (.str "FALSE") = .ok (some (.bool false)) ∧
    convertParam "p" ⟨"d", true, none, .boolean⟩ (.str "maybe")
      = .error (.paramValidation "Invalid boolean value for parameter 'p': maybe" "p") ∧
    convertParam "p" ⟨"d", true, none, .boolean⟩ (.num (.val 5)) = .ok (some (.bool true)) := by
  have h := boolean_conversion_semantics "p" ⟨"d", true, none, .boolean⟩ rfl
  refine ⟨h.1 false, ?_, ?_, ?_, ?_⟩
  · exact ((h.2.1 "YeS" (by decide)).1 (by decide))
  · exact ((h.2.1 "FALSE" (by decide)).2.1 (by decide))
  · exact ((h.2.1 "maybe" (by decide)).2.2 (by decide) (by decide))
  · have := h.2.2.1 (.val 5)
    simpa using this

/-- A conversion error for any configured parameter aborts the whole
`validateAndConvertParameters` loop with an error. -/
theorem validateAndConvert_error_of_mem (rawAnswers : List (String × JSPrim))
    (l : List (String × ParameterConfig)) (paramName : String)
    (config : ParameterConfig) (hmem : (paramName, config) ∈ l)
    (herr : ∃ e, convertParam paramName config (rawOf rawAnswers paramName) = .error e) :
    ∃ e, validateAndConvertParameters rawAnswers l = .error e := by
  induction l with
  | nil => cases hmem
  | cons p rest ih =>
    obtain ⟨q, qc⟩ := p
    rcases List.mem_cons.mp hmem with heq | hmem2
    · cases heq
      obtain ⟨e, he⟩ := herr
      exact ⟨e, by simp [validateAndConvertParameters, he]⟩
    · cases hc : convertParam q qc (rawOf rawAnswers q) with
      | error e => exact ⟨e, by simp [validateAndConvertParameters, hc]⟩
      | ok o =>
        obtain ⟨e, he⟩ := ih hmem2
        cases o with
        | none => exact ⟨e, by simp [validateAndConvertParameters, hc, he]⟩
        | some v => exact ⟨e, by simp [validateAndConvertParameters, hc, he]⟩

/-- C5 counterexample.  A required number-typed parameter left blank does
not fail the collection: the empty string is substituted through, JS
`Number("")` is 0, and the collection succeeds with the parameter bound
to 0 — contradicting the claim that every required parameter whose final
value is empty after substitution fails the whole collection. -/
theorem required_number_blank_collection_succeeds :
    collectParameters ⟨"t", "", "body", [("p", ⟨"", true, none, .number⟩)]⟩
        [("p", .str "")]
      = ⟨[("p", .num (.val 0))], true, none⟩ ∧
    (⟨"", true, none, .number⟩ : ParameterConfig).required = true ∧
    finalValueOf ⟨"", true, none, .number⟩ (rawOf [("p", .str "")] "p") = .str "" := by
  exact ⟨by decide, rfl, rfl⟩

/-- C5 amended.  A required parameter of string or boolean type whose
final value after substitution is the empty string makes the conversion
loop throw a `ParameterValidationError` carrying that parameter's name,
and any parameter whose conversion throws makes the whole collection
fail: `success = false`, an error message present, and an empty parameter
collection (no partial result).  (A required number-typed parameter is
the exception recorded by the counterexample: its empty string converts
to 0.) -/
theorem required_blank_string_boolean_fails_collection :
    (∀ (paramName : String) (config : ParameterConfig),
      config.required = true →
      (config.type = .string ∨ config.type = .boolean) →
      ∃ msg, convertParam paramName config (.str "")
        = .error (.paramValidation msg paramName)) ∧
    (∀ (tc : TemplateConfig) (rawAnswers : List (String × JSPrim))
        (paramName : String) (config : ParameterConfig),
      (paramName, config) ∈ tc.parameters →
      (∃ e, convertParam paramName config (rawOf rawAnswers paramName) = .error e) →
      (collectParameters tc rawAnswers).success = false ∧
      (collectParameters tc rawAnswers).parameters = [] ∧
      (collectParameters tc rawAnswers).error.isSome = true) := by
  constructor
  · intro paramName config hreq htype
    obtain ⟨desc, req, dv, ty⟩ := config
    change req = true at hreq
    subst hreq
    have hfv : finalValueOf ⟨desc, true, dv, ty⟩ (.str "") = .str "" := by
      unfold finalValueOf
      cases dv <;> rfl
    rcases htype with h | h <;> change ty = _ at h <;> subst h <;>
      · unfold convertParam
        simp only [hfv]
        exact ⟨_, rfl⟩
  · intro tc rawAnswers paramName config hmem herr
    have hne : tc.parameters ≠ [] := List.ne_nil_of_mem hmem
    have hemp : tc.parameters.isEmpty = false := by
      simpa [List.isEmpty_iff] using hne
    obtain ⟨e, he⟩ := validateAndConvert_error_of_mem rawAnswers tc.parameters
      paramName config hmem herr
    simp [collectParameters, hemp, he]

theorem required_blank_string_boolean_fails_collection_witness :
    (∃ msg, convertParam "p" ⟨"", true, none, .string⟩ (.str "")
      = .error (.paramValidation msg "p")) ∧
    (collectParameters ⟨"t", "", "b", [("p", ⟨"", true, none, .string⟩)]⟩
        [("p", .str "")]).success = false ∧
    (collectParameters ⟨"t", "", "b", [("p", ⟨"", true, none, .string⟩)]⟩
        [("p", .str "")]).parameters = [] ∧
    (collectParameters ⟨"t", "", "b", [("p", ⟨"", true, none, .string⟩)]⟩
        [("p", .str "")]).error.isSome = true := by
  have h := required_blank_string_boolean_fails_collection
  obtain ⟨msg, hmsg⟩ := h.1 "p" ⟨"", true, none, .string⟩ rfl (Or.inl rfl)
  refine ⟨⟨msg, hmsg⟩, ?_⟩
  exact h.2 ⟨"t", "", "b", [("p", ⟨"", true, none, .string⟩)]⟩ [("p", .str "")]
    "p" ⟨"", true, none, .string⟩ (by simp) ⟨_, hmsg⟩

/-- C9 counterexample.  An optional string parameter with `defaultValue`
equal to the empty string, left blank by the user, is omitted from the
result entirely instead of being collected as the default coerced to a
string (`""`), contradicting the claim that the collected value equals
the coerced default whenever a default is present. -/
theorem optional_blank_empty_default_key_absent :
    convertParam "p" ⟨"", false, some "", .string⟩ (.str "") = .ok none ∧
    convertParam "p" ⟨"", false, some "", .string⟩ (.str "")
      ≠ .ok (some (.str (jsToString (.str "")))) ∧
    collectParameters ⟨"t", "", "b", [("p", ⟨"", false, some "", .string⟩)]⟩
        [("p", .str "")]
      = ⟨[], true, none⟩ := by
  exact ⟨rfl, by decide, by decide⟩

/-- C9 amended.  For an optional parameter left blank: with no default,
or with the empty string as default, the parameter is omitted from the
result; with a non-empty default `d` the collection behaves exactly as if
the user had entered `d`, so the collected value is `d` coerced to the
declared type — stated in full for string (the value is `d` itself) and
number (the value is `Number(d)` when that is not NaN). -/
theorem optional_blank_default_substitution (paramName : String)
    (config : ParameterConfig) (raw : JSPrim)
    (hreq : config.required = false) (hblank : isBlank raw = true) :
    (config.defaultValue = none → convertParam paramName config raw = .ok none) ∧
    (config.defaultValue = some "" → convertParam paramName config raw = .ok none) ∧
    (∀ d, config.defaultValue = some d → d ≠ "" →
      convertParam paramName config raw = convertParam paramName config (.str d) ∧
      (config.type = .string →
        convertParam paramName config raw = .ok (some (.str d))) ∧
      (config.type = .number → ∀ q, strToNumber d = .val q →
        convertParam paramName config raw = .ok (some (.num (.val q))))) := by
  obtain ⟨desc, req, dv, ty⟩ := config
  change req = false at hreq
  subst hreq
  refine ⟨?_, ?_, ?_⟩
  · intro h
    change dv = none at h
    subst h
    simp [convertParam, finalValueOf, hblank]
  · intro h
    change dv = some "" at h
    subst h
    have he : isBlank (.str "") = true := rfl
    simp [convertParam, finalValueOf, hblank, he]
  · intro d hd hdne
    change dv = some d at hd
    subst hd
    have hfv : finalValueOf ⟨desc, false, some d, ty⟩ raw = .str d := by
      unfold finalValueOf
      rw [hblank]
      rfl
    have hbd : isBlank (.str d) = false := by
      simp [isBlank, hdne]
    have hie : isEmptyVal (.str d) = false := by
      simp [isEmptyVal, hdne]
    have hpipe : convertParam paramName ⟨desc, false, some d, ty⟩ raw
        = convertParam paramName ⟨desc, false, some d, ty⟩ (.str d) := by
      rw [convertParam_not_blank _ _ _ hbd]
      unfold convertParam
      simp only [hfv, hbd, Bool.not_false, Bool.true_and, Bool.false_eq_true, if_false]
    refine ⟨hpipe, ?_, ?_⟩
    · intro hty
      change ty = .string at hty
      subst hty
      rw [hpipe, convertParam_not_blank _ _ _ hbd]
      simp [convertValue, validateParameterValue, hie, typeofStr, jsToString]
    · intro hty q hq
      change ty = .number at hty
      subst hty
      rw [hpipe, convertParam_not_blank _ _ _ hbd]
      simp [convertValue, validateParameterValue, hie, jsToNumber, hq, typeofStr]

theorem optional_blank_default_substitution_witness :
    convertParam "p" ⟨"", false, none, .string⟩ (.str "") = .ok none ∧
    convertParam "p" ⟨"", false, some "42", .number⟩ .undefined
      = .ok (some (.num (.val 42))) := by
  have h1 := (optional_blank_default_substitution "p" ⟨"", false, none, .string⟩
    (.str "") rfl rfl).1 rfl
  have h2 := ((optional_blank_default_substitution "p" ⟨"", false, some "42", .number⟩
    .undefined rfl rfl).2.2 "42" rfl (by decide)).2.2 rfl 42 (by decide)
  exact ⟨h1, h2⟩

theorem compileTemplate_oversized_uncached_fails_witness :
    (∃ msg, (compileTemplate ⟨⟨none, none, none, some 3, none⟩, [], []⟩
        ⟨"t", "", "abcd", []⟩).1 = .error (.generation msg "t")) ∧
    (compileTemplate ⟨⟨none, none, none, some 3, none⟩, [], []⟩
        ⟨"t", "", "abcd", []⟩).2 = ⟨⟨none, none, none, some 3, none⟩, [], []⟩ :=
  compileTemplate_oversized_uncached_fails
    ⟨⟨none, none, none, some 3, none⟩, [], []⟩ ⟨"t", "", "abcd", []⟩ rfl (by decide)

theorem isEmpty_append (l m : List String) :
    (l ++ m).isEmpty = (l.isEmpty && m.isEmpty) := by
  cases l <;> simp

theorem jsEntries_map_snd (v : JSVal) :
    (jsEntries v).map Prod.snd = jsValuesList v := by
  have harr : ∀ (l : List (ℕ × JSVal)),
      List.map (Prod.snd ∘ fun p => (toString p.1, p.2)) l = List.map Prod.snd l := by
    intro l
    induction l with
    | nil => rfl
    | cons a t ih => simp [ih, Function.comp]
  cases v <;> simp [jsEntries, jsValuesList, harr]

theorem filterMap_invalid_isEmpty (entries : List (String × JSVal)) :
    (entries.filterMap fun e =>
        if isValidParameterConfig e.2 then none
        else some ("Parameter '" ++ e.1 ++ "' is invalid")).isEmpty
      = entries.all fun e => isValidParameterConfig e.2 := by
  induction entries with
  | nil => rfl
  | cons a t ih =>
    by_cases hv : isValidParameterConfig a.2 = true
    · simp [List.filterMap_cons, hv, ih]
    · rw [Bool.not_eq_true] at hv
      simp [List.filterMap_cons, hv]

/-- C10.  The boolean type guard `isValidTemplateConfig` and the
error-reporting `validateTemplateConfig` accept exactly the same JS
values: the reported `valid` flag equals the guard on every input. -/
theorem validateTemplateConfig_agrees_with_guard (config : JSVal) :
    (validateTemplateConfig config).valid = isValidTemplateConfig config := by
  unfold validateTemplateConfig isValidTemplateConfig
  cases ht : (config.typeof == "object") with
  | false =>
    rw [if_pos (by simp [ht])]
    simp [ht]
  | true =>
    cases hn : config.isNull with
    | true =>
      rw [if_pos (by simp [hn])]
      simp [hn]
    | false =>
      rw [if_neg (by simp [ht, hn])]
      show (configShapeErrors config).isEmpty = _
      unfold configShapeErrors
      rw [isEmpty_append, isEmpty_append, isEmpty_append]
      have hall : ((jsEntries (getField config "parameters")).all fun e =>
          isValidParameterConfig e.2)
          = (jsValuesList (getField config "parameters")).all isValidParameterConfig := by
        have hmap : ∀ (l : List (String × JSVal)),
            (l.all fun e => isValidParameterConfig e.2)
              = (l.map Prod.snd).all isValidParameterConfig := by
          intro l
          induction l with
          | nil => rfl
          | cons a t ih => simp [ih]
        rw [← jsEntries_map_snd, ← hmap]
      by_cases hp : (!((getField config "parameters").typeof == "object")
          || (getField config "parameters").isNull) = true
      · have hp2 : (((getField config "parameters").typeof == "object")
            && !(getField config "parameters").isNull) = false := by
          cases h1 : ((getField config "parameters").typeof == "object") <;>
            cases h2 : (getField config "parameters").isNull <;> simp_all
        rw [if_pos hp]
        cases h1 : (match getField config "name" with
            | JSVal.str s => decide (0 < s.length)
            | _ => false) <;>
          cases h2 : ((getField config "description").typeof == "string") <;>
          cases h3 : ((getField config "template").typeof == "string") <;>
          simp_all
      · have hp3 : (((getField config "parameters").typeof == "object")
            && !(getField config "parameters").isNull) = true := by
          cases h1 : ((getField config "parameters").typeof == "object") <;>
            cases h2 : (getField config "parameters").isNull <;> simp_all
        rw [if_neg hp, filterMap_invalid_isEmpty, hall]
        cases h1 : (match getField config "name" with
            | JSVal.str s => decide (0 < s.length)
            | _ => false) <;>
          cases h2 : ((getField config "description").typeof == "string") <;>
          cases h3 : ((getField config "template").typeof == "string") <;>
          simp_all

/-- Every generation result is either the failure shape produced by the
catch block or the success shape whose output went through
`cleanupOutput`. -/
theorem generatePrompt_failed_or_rendered (gen : TemplateGenerator)
    (env : HandlebarsEnv) (tc : TemplateConfig)
    (params : List (String × JSPrim)) (opts : GenerationOptions)
    (eval : String → TemplateContext → Option String) (t : Nat) :
    (∃ msg, (generatePrompt gen env tc params opts eval t).1
        = failedResult tc params t msg) ∨
    (∃ compiled context raw, eval compiled context = some raw ∧
      (generatePrompt gen env tc params opts eval t).1
        = ⟨cleanupOutputStr raw, true, context, none,
           ⟨tc.name, params.map Prod.fst, t⟩⟩) := by
  simp only [generatePrompt]
  cases hc : compileTemplate gen tc with
  | mk res gen1 =>
    cases res with
    | error e => exact Or.inl ⟨e.message, rfl⟩
    | ok compiled =>
      cases hp : prepareContext params tc (mergeOptions gen.options opts) with
      | error e => exact Or.inl ⟨e.message, rfl⟩
      | ok context =>
        cases he : eval compiled context with
        | none =>
          refine Or.inl ⟨"Template rendering failed", ?_⟩
          simp [renderTemplate, he, GenError.message]
        | some raw =>
          refine Or.inr ⟨compiled, context, raw, he, ?_⟩
          simp [renderTemplate, he]

/-- C7.  Every failed render returns the failure shape: empty output,
`success = false`, an error message present, the empty context, and
metadata still carrying the template name, the parameter names used and
the elapsed generation time. -/
theorem failed_generation_result_shape (gen : TemplateGenerator)
    (env : HandlebarsEnv) (tc : TemplateConfig)
    (params : List (String × JSPrim)) (opts : GenerationOptions)
    (eval : String → TemplateContext → Option String) (t : Nat)
    (h : ((generatePrompt gen env tc params opts eval t).1).success = false) :
    ((generatePrompt gen env tc params opts eval t).1).output = "" ∧
    ((generatePrompt gen env tc params opts eval t).1).context = emptyContext ∧
    ((generatePrompt gen env tc params opts eval t).1).error.isSome = true ∧
    ((generatePrompt gen env tc params opts eval t).1).metadata.templateName = tc.name ∧
    ((generatePrompt gen env tc params opts eval t).1).metadata.parametersUsed
      = params.map Prod.fst ∧
    ((generatePrompt gen env tc params opts eval t).1).metadata.generationTime = t := by
  rcases generatePrompt_failed_or_rendered gen env tc params opts eval t with
    ⟨msg, hm⟩ | ⟨compiled, context, raw, he, hm⟩
  · rw [hm]
    exact ⟨rfl, rfl, rfl, rfl, rfl, rfl⟩
  · rw [hm] at h
    cases h

theorem failed_generation_result_shape_witness :
    ((generatePrompt ⟨⟨none, none, none, none, none⟩, [], []⟩ ⟨[]⟩ ⟨"t", "d", "", []⟩
        [] ⟨none, none, none, none, none⟩ (fun _ _ => some "out") 7).1).output = "" ∧
    ((generatePrompt ⟨⟨none, none, none, none, none⟩, [], []⟩ ⟨[]⟩ ⟨"t", "d", "", []⟩
        [] ⟨none, none, none, none, none⟩ (fun _ _ => some "out") 7).1).context
      = emptyContext ∧
    ((generatePrompt ⟨⟨none, none, none, none, none⟩, [], []⟩ ⟨[]⟩ ⟨"t", "d", "", []⟩
        [] ⟨none, none, none, none, none⟩ (fun _ _ => some "out") 7).1).error.isSome
      = true ∧
    ((generatePrompt ⟨⟨none, none, none, none, none⟩, [], []⟩ ⟨[]⟩ ⟨"t", "d", "", []⟩
        [] ⟨none, none, none, none, none⟩ (fun _ _ => some "out") 7).1).metadata.templateName
      = "t" ∧
    ((generatePrompt ⟨⟨none, none, none, none, none⟩, [], []⟩ ⟨[]⟩ ⟨"t", "d", "", []⟩
        [] ⟨none, none, none, none, none⟩ (fun _ _ => some "out") 7).1).metadata.parametersUsed
      = List.map Prod.fst ([] : List (String × JSPrim)) ∧
    ((generatePrompt ⟨⟨none, none, none, none, none⟩, [], []⟩ ⟨[]⟩ ⟨"t", "d", "", []⟩
        [] ⟨none, none, none, none, none⟩ (fun _ _ => some "out") 7).1).metadata.generationTime
      = 7 :=
  failed_generation_result_shape ⟨⟨none, none, none, none, none⟩, [], []⟩ ⟨[]⟩
    ⟨"t", "d", "", []⟩ [] ⟨none, none, none, none, none⟩ (fun _ _ => some "out") 7 rfl

/-! ## Cleanup-pass lemmas for C1 -/

/-- No character of a head position is whitespace (vacuous when empty). -/
def headNonWS (l : List Char) : Prop :=
  ∀ c, l.head? = some c → isWS c = false

/-- The last character, if any, is not whitespace. -/
def endsNonWS (l : List Char) : Prop :=
  ∀ c, l.getLast? = some c → isWS c = false

theorem collapseNewlinesF_nil (fuel : Nat) : collapseNewlinesF fuel [] = [] := by
  cases fuel <;> rfl

theorem collapseNewlinesF_succ (fuel : Nat) (c : Char) (rest : List Char) :
    collapseNewlinesF (fuel + 1) (c :: rest)
      = if c = '\n' ∧ 2 ≤ ((rest.takeWhile isWS).count '\n') then
          match lastNL (rest.takeWhile isWS) with
          | some i => '\n' :: '\n' :: collapseNewlinesF fuel (rest.drop (i + 1))
          | none => c :: collapseNewlinesF fuel rest
        else c :: collapseNewlinesF fuel rest := rfl

theorem collapseNewlinesF_congr : ∀ (fuel₁ : Nat) (fuel₂ : Nat) (l : List Char),
    l.length ≤ fuel₁ → l.length ≤ fuel₂ →
    collapseNewlinesF fuel₁ l = collapseNewlinesF fuel₂ l := by
  intro fuel₁
  induction fuel₁ with
  | zero =>
    intro fuel₂ l h1 _
    have : l = [] := List.length_eq_zero.mp (Nat.le_zero.mp h1)
    subst this
    rw [collapseNewlinesF_nil, collapseNewlinesF_nil]
  | succ f ih =>
    intro fuel₂ l h1 h2
    cases l with
    | nil => rw [collapseNewlinesF_nil, collapseNewlinesF_nil]
    | cons c rest =>
      cases fuel₂ with
      | zero => simp at h2
      | succ f2 =>
        rw [collapseNewlinesF_succ, collapseNewlinesF_succ]
        have hr1 : rest.length ≤ f := by
          simp only [List.length_cons] at h1
          omega
        have hr2 : rest.length ≤ f2 := by
          simp only [List.length_cons] at h2
          omega
        by_cases hc : c = '\n' ∧ 2 ≤ ((rest.takeWhile isWS).count '\n')
        · rw [if_pos hc, if_pos hc]
          cases hl : lastNL (rest.takeWhile isWS) with
          | some i =>
            have hd : (rest.drop (i + 1)).length ≤ f := by
              rw [List.length_drop]
              omega
            have hd2 : (rest.drop (i + 1)).length ≤ f2 := by
              rw [List.length_drop]
              omega
            show '\n' :: '\n' :: collapseNewlinesF f (rest.drop (i + 1))
              = '\n' :: '\n' :: collapseNewlinesF f2 (rest.drop (i + 1))
            rw [ih f2 (rest.drop (i + 1)) hd hd2]
          | none =>
            show c :: collapseNewlinesF f rest = c :: collapseNewlinesF f2 rest
            rw [ih f2 rest hr1 hr2]
        · rw [if_neg hc, if_neg hc, ih f2 rest hr1 hr2]

theorem collapseNewlines_nil : collapseNewlines [] = [] := rfl

theorem collapseNewlines_cons_nomatch (c : Char) (rest : List Char)
    (h : ¬(c = '\n' ∧ 2 ≤ ((rest.takeWhile isWS).count '\n'))) :
    collapseNewlines (c :: rest) = c :: collapseNewlines rest := by
  unfold collapseNewlines
  rw [show (c :: rest).length = rest.length + 1 from rfl, collapseNewlinesF_succ, if_neg h]

theorem collapseNewlines_cons_match (rest : List Char) (i : Nat)
    (h2 : 2 ≤ ((rest.takeWhile isWS).count '\n'))
    (hi : lastNL (rest.takeWhile isWS) = some i) :
    collapseNewlines ('\n' :: rest)
      = '\n' :: '\n' :: collapseNewlines (rest.drop (i + 1)) := by
  unfold collapseNewlines
  rw [show ('\n' :: rest).length = rest.length + 1 from rfl, collapseNewlinesF_succ,
    if_pos ⟨rfl, h2⟩, hi]
  show '\n' :: '\n' :: collapseNewlinesF rest.length (rest.drop (i + 1)) = _
  rw [collapseNewlinesF_congr rest.length (rest.drop (i + 1)).length (rest.drop (i + 1))
    (by rw [List.length_drop]; omega) le_rfl]

theorem lastNL_cons (c : Char) (rest : List Char) :
    lastNL (c :: rest)
      = match lastNL rest with
        | some i => some (i + 1)
        | none => if c = '\n' then some 0 else none := rfl

theorem lastNL_none_iff : ∀ (l : List Char), lastNL l = none ↔ '\n' ∉ l := by
  intro l
  induction l with
  | nil => simp [lastNL]
  | cons c rest ih =>
    rw [lastNL_cons]
    cases h : lastNL rest with
    | some i =>
      have hmem : '\n' ∈ rest := by
        by_contra hnot
        rw [ih.mpr hnot] at h
        cases h
      simp [hmem]
    | none =>
      have hnot : '\n' ∉ rest := ih.mp h
      by_cases hc : c = '\n'
      · subst hc
        simp
      · have : ¬('\n' = c) := fun he => hc he.symm
        simp [hc, hnot, this]

theorem lastNL_bound : ∀ (l : List Char) (i : Nat), lastNL l = some i → i < l.length := by
  intro l
  induction l with
  | nil => intro i h; cases h
  | cons c rest ih =>
    intro i h
    rw [lastNL_cons] at h
    cases hr : lastNL rest with
    | some j =>
      rw [hr] at h
      cases h
      have := ih j hr
      simp only [List.length_cons]
      omega
    | none =>
      rw [hr] at h
      by_cases hc : c = '\n'
      · rw [if_pos hc] at h
        cases h
        simp
      · rw [if_neg hc] at h
        cases h

theorem lastNL_drop_eq : ∀ (l : List Char) (i : Nat), lastNL l = some i →
    l.drop i = '\n' :: l.drop (i + 1) := by
  intro l
  induction l with
  | nil => intro i h; cases h
  | cons c rest ih =>
    intro i h
    rw [lastNL_cons] at h
    cases hr : lastNL rest with
    | some j =>
      rw [hr] at h
      cases h
      show rest.drop j = '\n' :: rest.drop (j + 1)
      exact ih j hr
    | none =>
      rw [hr] at h
      by_cases hc : c = '\n'
      · rw [if_pos hc] at h
        cases h
        rw [hc]
        rfl
      · rw [if_neg hc] at h
        cases h

theorem lastNL_drop_no_newline : ∀ (l : List Char) (i : Nat), lastNL l = some i →
    '\n' ∉ l.drop (i + 1) := by
  intro l
  induction l with
  | nil => intro i h; cases h
  | cons c rest ih =>
    intro i h
    rw [lastNL_cons] at h
    cases hr : lastNL rest with
    | some j =>
      rw [hr] at h
      cases h
      show '\n' ∉ rest.drop (j + 1)
      exact ih j hr
    | none =>
      rw [hr] at h
      by_cases hc : c = '\n'
      · rw [if_pos hc] at h
        cases h
        show '\n' ∉ rest
        exact (lastNL_none_iff rest).mp hr
      · rw [if_neg hc] at h
        cases h

theorem lastNL_append (a b : List Char) :
    lastNL (a ++ b)
      = match lastNL b with
        | some j => some (a.length + j)
        | none => lastNL a := by
  induction a with
  | nil =>
    cases hb : lastNL b <;> simp [hb, lastNL]
  | cons c a2 ih =>
    rw [List.cons_append, lastNL_cons, ih, lastNL_cons]
    cases hb : lastNL b with
    | some j =>
      show some (a2.length + j + 1) = some ((c :: a2).length + j)
      simp only [List.length_cons]
      congr 1
      omega
    | none =>
      rfl

theorem takeWhile_all_append (p : Char → Bool) : ∀ (w r : List Char),
    (∀ c ∈ w, p c = true) → (∀ c, r.head? = some c → p c = false) →
    (w ++ r).takeWhile p = w := by
  intro w
  induction w with
  | nil =>
    intro r _ hr
    cases r with
    | nil => rfl
    | cons c r2 =>
      show (c :: r2).takeWhile p = []
      rw [List.takeWhile_cons, hr c rfl]
      rfl
  | cons d w2 ih =>
    intro r hw hr
    rw [List.cons_append, List.takeWhile_cons, hw d (List.mem_cons_self d w2)]
    rw [ih r (fun c hc => hw c (List.mem_cons_of_mem d hc)) hr]
    rfl

theorem takeWhile_stops_within (p : Char → Bool) : ∀ (a r : List Char),
    (∃ x ∈ a, p x = false) → (a ++ r).takeWhile p = a.takeWhile p := by
  intro a
  induction a with
  | nil =>
    intro r h
    obtain ⟨x, hx, _⟩ := h
    cases hx
  | cons c a2 ih =>
    intro r hex
    rw [List.cons_append, List.takeWhile_cons, List.takeWhile_cons]
    cases hc : p c with
    | false => rfl
    | true =>
      have hex2 : ∃ x ∈ a2, p x = false := by
        obtain ⟨x, hx, hpx⟩ := hex
        rcases List.mem_cons.mp hx with he | hm
        · subst he
          rw [hc] at hpx
          cases hpx
        · exact ⟨x, hm, hpx⟩
      rw [ih r hex2]

theorem dropWhile_head_false (p : Char → Bool) : ∀ (l : List Char) (c : Char),
    (l.dropWhile p).head? = some c → p c = false := by
  intro l
  induction l with
  | nil => intro c h; cases h
  | cons d l2 ih =>
    intro c h
    rw [List.dropWhile_cons] at h
    by_cases hd : p d = true
    · rw [if_pos hd] at h
      exact ih c h
    · rw [if_neg hd] at h
      cases h
      exact Bool.not_eq_true _ |>.mp hd

/-- A prefix without newlines is copied through the first replacement
unchanged: no match can start on a non-newline character. -/
theorem collapseNewlines_no_nl_prefix : ∀ (p x : List Char),
    (∀ c ∈ p, ¬(c = '\n')) → collapseNewlines (p ++ x) = p ++ collapseNewlines x := by
  intro p
  induction p with
  | nil => intro x _; rfl
  | cons c p2 ih =>
    intro x hp
    rw [List.cons_append,
      collapseNewlines_cons_nomatch c (p2 ++ x)
        (fun hAnd => hp c (List.mem_cons_self c p2) hAnd.1),
      ih x (fun d hd => hp d (List.mem_cons_of_mem c hd))]
    rfl

/-- A whitespace run with at most two newlines, followed by a
non-whitespace boundary, is copied through the first replacement
unchanged. -/
theorem collapseNewlines_small_run : ∀ (w r : List Char),
    (∀ c ∈ w, isWS c = true) → w.count '\n' ≤ 2 → headNonWS r →
    collapseNewlines (w ++ r) = w ++ collapseNewlines r := by
  intro w
  induction w with
  | nil => intro r _ _ _; rfl
  | cons d w2 ih =>
    intro r hw hcount hr
    have hw2 : ∀ c ∈ w2, isWS c = true := fun c hc => hw c (List.mem_cons_of_mem d hc)
    have htw : (w2 ++ r).takeWhile isWS = w2 := takeWhile_all_append isWS w2 r hw2 hr
    have hcount2 : w2.count '\n' ≤ 2 := by
      rw [List.count_cons] at hcount
      omega
    by_cases hd : d = '\n'
    · subst hd
      have hc1 : w2.count '\n' ≤ 1 := by
        rw [List.count_cons] at hcount
        simp at hcount
        omega
      rw [List.cons_append,
        collapseNewlines_cons_nomatch _ _
          (fun hAnd => by rw [htw] at hAnd; omega),
        ih r hw2 hcount2 hr]
      rfl
    · rw [List.cons_append,
        collapseNewlines_cons_nomatch _ _ (fun hAnd => hd hAnd.1),
        ih r hw2 hcount2 hr]
      rfl

/-- What the first replacement does to one maximal whitespace run at a
non-whitespace boundary: exactly `collapseRun`. -/
theorem collapseNewlines_ws_run : ∀ (w r : List Char),
    (∀ c ∈ w, isWS c = true) → headNonWS r →
    collapseNewlines (w ++ r) = collapseRun w ++ collapseNewlines r := by
  intro w r hw hr
  by_cases h3 : 3 ≤ w.count '\n'
  · -- decompose w at its first newline
    have hsplit : w.takeWhile (· ≠ '\n') ++ w.dropWhile (· ≠ '\n') = w :=
      List.takeWhile_append_dropWhile (· ≠ '\n') w
    have hmem : '\n' ∈ w := by
      rw [← List.count_pos_iff]
      omega
    -- the drop part starts with a newline
    obtain ⟨t, ht⟩ : ∃ t, w.dropWhile (· ≠ '\n') = '\n' :: t := by
      cases hd : w.dropWhile (· ≠ '\n') with
      | nil =>
        exfalso
        have heq : w.takeWhile (· ≠ '\n') = w := by
          have := hsplit
          rw [hd, List.append_nil] at this
          exact this
        have hnl : '\n' ∈ w.takeWhile (· ≠ '\n') := by
          rw [heq]
          exact hmem
        have := List.mem_takeWhile_imp hnl
        simp at this
      | cons c t =>
        have hc := dropWhile_head_false (fun x => decide (x ≠ '\n')) w c
          (by rw [hd]; rfl)
        have hceq : c = '\n' := by simpa using hc
        subst hceq
        exact ⟨t, rfl⟩
    set p := w.takeWhile (· ≠ '\n') with hpdef
    have hw2 : w = p ++ '\n' :: t := by rw [← hsplit, ht]
    have hpnl : ∀ c ∈ p, ¬(c = '\n') := by
      intro c hc
      have hdec := List.mem_takeWhile_imp hc
      simpa using hdec
    have hpcount : p.count '\n' = 0 := by
      rw [List.count_eq_zero]
      intro hmem2
      exact hpnl '\n' hmem2 rfl
    have htcount : 2 ≤ t.count '\n' := by
      have := congrArg (List.count '\n') hw2
      rw [List.count_append, hpcount, List.count_cons] at this
      simp at this
      omega
    have htws : ∀ c ∈ t, isWS c = true := by
      intro c hc
      apply hw
      rw [hw2]
      exact List.mem_append_right p (List.mem_cons_of_mem '\n' hc)
    obtain ⟨i, hi⟩ : ∃ i, lastNL t = some i := by
      cases hl : lastNL t with
      | none =>
        exfalso
        have := (lastNL_none_iff t).mp hl
        rw [← List.count_eq_zero] at this
        omega
      | some i => exact ⟨i, rfl⟩
    have hibound : i < t.length := lastNL_bound t i hi
    -- step through p, fire the match at the first newline
    have htw : (t ++ r).takeWhile isWS = t := takeWhile_all_append isWS t r htws hr
    have hstep : collapseNewlines ('\n' :: (t ++ r))
        = '\n' :: '\n' :: collapseNewlines ((t ++ r).drop (i + 1)) := by
      apply collapseNewlines_cons_match
      · rw [htw]
        exact htcount
      · rw [htw]
        exact hi
    have hdrop : (t ++ r).drop (i + 1) = t.drop (i + 1) ++ r := by
      rw [List.drop_append_eq_append_drop]
      have : i + 1 - t.length = 0 := by omega
      rw [this, List.drop_zero]
    have htail : collapseNewlines (t.drop (i + 1) ++ r)
        = t.drop (i + 1) ++ collapseNewlines r := by
      apply collapseNewlines_no_nl_prefix
      intro c hc he
      subst he
      exact lastNL_drop_no_newline t i hi hc
    -- left side
    have hleft : collapseNewlines (w ++ r)
        = p ++ '\n' :: '\n' :: (t.drop (i + 1) ++ collapseNewlines r) := by
      rw [hw2, List.append_assoc, List.cons_append,
        collapseNewlines_no_nl_prefix p ('\n' :: (t ++ r)) hpnl,
        hstep, hdrop, htail]
    -- right side: collapseRun w
    have hlast : lastNL w = some (p.length + (i + 1)) := by
      rw [hw2, lastNL_append, lastNL_cons, hi]
    have hrun : collapseRun w = p ++ '\n' :: '\n' :: t.drop (i + 1) := by
      unfold collapseRun
      rw [if_pos h3, hlast]
      show w.takeWhile (· ≠ '\n') ++ '\n' :: '\n' :: w.drop (p.length + (i + 1) + 1) = _
      rw [← hpdef]
      congr 2
      rw [hw2]
      have : p.length + (i + 1) + 1 = p.length + (i + 2) := by omega
      rw [this, List.drop_append]
      rfl
    rw [hleft, hrun, List.append_assoc]
    rfl
  · unfold collapseRun
    rw [if_neg h3]
    exact collapseNewlines_small_run w r hw (by omega) hr

/-- The first replacement distributes over a boundary whose left side
ends in a non-whitespace character: no match can span the boundary. -/
theorem collapseNewlines_append : ∀ (a r : List Char), endsNonWS a →
    collapseNewlines (a ++ r) = collapseNewlines a ++ collapseNewlines r := by
  have H : ∀ (n : Nat) (a r : List Char), a.length ≤ n → endsNonWS a →
      collapseNewlines (a ++ r) = collapseNewlines a ++ collapseNewlines r := by
    intro n
    induction n with
    | zero =>
      intro a r h1 _
      have : a = [] := List.length_eq_zero.mp (Nat.le_zero.mp h1)
      subst this
      rfl
    | succ m ih =>
      intro a r hlen hends
      cases a with
      | nil => rfl
      | cons c a2 =>
        cases a2 with
        | nil =>
          have hcws : isWS c = false := hends c rfl
          have hcnl : ¬(c = '\n') := by
            intro he
            subst he
            cases hcws
          show collapseNewlines (c :: r) = collapseNewlines [c] ++ collapseNewlines r
          rw [collapseNewlines_cons_nomatch c r (fun hAnd => hcnl hAnd.1),
            collapseNewlines_cons_nomatch c [] (fun hAnd => hcnl hAnd.1),
            collapseNewlines_nil]
          rfl
        | cons d a3 =>
          have hends2 : endsNonWS (d :: a3) := by
            intro z hz
            apply hends z
            rw [List.getLast?_cons_cons]
            exact hz
          have hlen2 : (d :: a3).length ≤ m := by
            simp only [List.length_cons] at hlen ⊢
            omega
          have hex : ∃ x ∈ d :: a3, isWS x = false := by
            cases hz : (d :: a3).getLast? with
            | none =>
              rw [List.getLast?_eq_none_iff] at hz
              cases hz
            | some z =>
              exact ⟨z, List.mem_of_mem_getLast? hz, hends2 z hz⟩
          have htw : ((d :: a3) ++ r).takeWhile isWS = (d :: a3).takeWhile isWS :=
            takeWhile_stops_within isWS (d :: a3) r hex
          by_cases hc : c = '\n' ∧ 2 ≤ (((d :: a3).takeWhile isWS).count '\n')
          · obtain ⟨hc1, hc2⟩ := hc
            subst hc1
            obtain ⟨i, hi⟩ : ∃ i, lastNL ((d :: a3).takeWhile isWS) = some i := by
              cases hl : lastNL ((d :: a3).takeWhile isWS) with
              | none =>
                exfalso
                have hnm := (lastNL_none_iff _).mp hl
                rw [← List.count_eq_zero] at hnm
                omega
              | some i => exact ⟨i, rfl⟩
            have hib : i < ((d :: a3).takeWhile isWS).length := lastNL_bound _ _ hi
            have hile : i + 1 ≤ (d :: a3).length :=
              Nat.le_trans hib (List.takeWhile_prefix isWS).length_le
            have hstep1 : collapseNewlines ('\n' :: ((d :: a3) ++ r))
                = '\n' :: '\n' :: collapseNewlines (((d :: a3) ++ r).drop (i + 1)) := by
              apply collapseNewlines_cons_match
              · rw [htw]
                exact hc2
              · rw [htw]
                exact hi
            have hstep2 : collapseNewlines ('\n' :: (d :: a3))
                = '\n' :: '\n' :: collapseNewlines ((d :: a3).drop (i + 1)) :=
              collapseNewlines_cons_match (d :: a3) i hc2 hi
            have hdrop : ((d :: a3) ++ r).drop (i + 1) = (d :: a3).drop (i + 1) ++ r := by
              rw [List.drop_append_eq_append_drop]
              have : i + 1 - (d :: a3).length = 0 := by omega
              rw [this, List.drop_zero]
            have hendsd : endsNonWS ((d :: a3).drop (i + 1)) := by
              intro z hz
              apply hends2 z
              have hne : (d :: a3).drop (i + 1) ≠ [] := by
                intro h0
                rw [h0] at hz
                cases hz
              rw [← List.take_append_drop (i + 1) (d :: a3),
                List.getLast?_append_of_ne_nil _ hne]
              exact hz
            have hlend : ((d :: a3).drop (i + 1)).length ≤ m := by
              rw [List.length_drop]
              simp only [List.length_cons] at hlen2 ⊢
              omega
            have hrec := ih ((d :: a3).drop (i + 1)) r hlend hendsd
            show collapseNewlines ('\n' :: ((d :: a3) ++ r))
              = collapseNewlines ('\n' :: (d :: a3)) ++ collapseNewlines r
            rw [hstep1, hstep2, hdrop, hrec]
            rfl
          · show collapseNewlines (c :: ((d :: a3) ++ r))
              = collapseNewlines (c :: (d :: a3)) ++ collapseNewlines r
            rw [collapseNewlines_cons_nomatch c ((d :: a3) ++ r)
                (fun hAnd => hc ⟨hAnd.1, by rw [htw] at hAnd; exact hAnd.2⟩),
              collapseNewlines_cons_nomatch c (d :: a3) hc,
              ih (d :: a3) r hlen2 hends2]
            rfl
  intro a r hends
  exact H a.length a r le_rfl hends

/-- The count of newlines a run carries after the first replacement:
exactly two when it had three or more, untouched otherwise. -/
theorem collapseRun_count (w : List Char) :
    (collapseRun w).count '\n' = if 3 ≤ w.count '\n' then 2 else w.count '\n' := by
  unfold collapseRun
  by_cases h3 : 3 ≤ w.count '\n'
  · rw [if_pos h3, if_pos h3]
    have hp0 : (w.takeWhile (· ≠ '\n')).count '\n' = 0 := by
      rw [List.count_eq_zero]
      intro hmem
      have := List.mem_takeWhile_imp hmem
      simp at this
    obtain ⟨i, hi⟩ : ∃ i, lastNL w = some i := by
      cases hl : lastNL w with
      | none =>
        exfalso
        have := (lastNL_none_iff w).mp hl
        rw [← List.count_eq_zero] at this
        omega
      | some i => exact ⟨i, rfl⟩
    rw [hi]
    have hd0 : (w.drop (i + 1)).count '\n' = 0 := by
      rw [List.count_eq_zero]
      exact lastNL_drop_no_newline w i hi
    show ((w.takeWhile (· ≠ '\n')) ++ '\n' :: '\n' :: w.drop (i + 1)).count '\n' = 2
    rw [List.count_append, hp0, List.count_cons, List.count_cons, hd0]
    simp
  · rw [if_neg h3, if_neg h3]

/-- The head of the trimmed output is not whitespace. -/
theorem trimWS_headNonWS (l : List Char) : headNonWS (trimWS l) := by
  intro c hc
  unfold trimWS at hc
  rw [List.head?_reverse] at hc
  obtain ⟨t, ht⟩ := List.dropWhile_suffix (l := (l.dropWhile isWS).reverse) isWS
  have hne : (l.dropWhile isWS).reverse.dropWhile isWS ≠ [] := by
    intro h0
    rw [h0] at hc
    cases hc
  have hlast : ((l.dropWhile isWS).reverse).getLast? = some c := by
    rw [← ht, List.getLast?_append_of_ne_nil _ hne]
    exact hc
  rw [List.getLast?_reverse] at hlast
  exact dropWhile_head_false isWS l c hlast

/-- The last character of the trimmed output is not whitespace. -/
theorem trimWS_endsNonWS (l : List Char) : endsNonWS (trimWS l) := by
  intro c hc
  unfold trimWS at hc
  rw [List.getLast?_reverse] at hc
  exact dropWhile_head_false isWS (l.dropWhile isWS).reverse c hc

theorem isST_isWS (c : Char) (h : isST c = true) : isWS c = true := by
  have : c = ' ' ∨ c = '\t' := by simpa [isST] using h
  rcases this with h1 | h1 <;> subst h1 <;> rfl

theorem collapseSTF_nil (fuel : Nat) : collapseSTF fuel [] = [] := by
  cases fuel <;> rfl

theorem collapseSTF_succ (fuel : Nat) (c : Char) (rest : List Char) :
    collapseSTF (fuel + 1) (c :: rest)
      = if isST c then ' ' :: collapseSTF fuel (rest.dropWhile isST)
        else c :: collapseSTF fuel rest := rfl

theorem collapseSTF_congr : ∀ (fuel₁ fuel₂ : Nat) (l : List Char),
    l.length ≤ fuel₁ → l.length ≤ fuel₂ →
    collapseSTF fuel₁ l = collapseSTF fuel₂ l := by
  intro fuel₁
  induction fuel₁ with
  | zero =>
    intro fuel₂ l h1 _
    have : l = [] := List.length_eq_zero.mp (Nat.le_zero.mp h1)
    subst this
    rw [collapseSTF_nil, collapseSTF_nil]
  | succ f ih =>
    intro fuel₂ l h1 h2
    cases l with
    | nil => rw [collapseSTF_nil, collapseSTF_nil]
    | cons c rest =>
      cases fuel₂ with
      | zero => simp at h2
      | succ f2 =>
        rw [collapseSTF_succ, collapseSTF_succ]
        have hr1 : rest.length ≤ f := by
          simp only [List.length_cons] at h1
          omega
        have hr2 : rest.length ≤ f2 := by
          simp only [List.length_cons] at h2
          omega
        by_cases hc : isST c = true
        · rw [if_pos hc, if_pos hc,
            ih f2 (rest.dropWhile isST)
              (Nat.le_trans (List.dropWhile_sublist isST).length_le hr1)
              (Nat.le_trans (List.dropWhile_sublist isST).length_le hr2)]
        · rw [if_neg hc, if_neg hc, ih f2 rest hr1 hr2]

theorem collapseST_cons_st (c : Char) (rest : List Char) (h : isST c = true) :
    collapseST (c :: rest) = ' ' :: collapseST (rest.dropWhile isST) := by
  unfold collapseST
  rw [show (c :: rest).length = rest.length + 1 from rfl, collapseSTF_succ, if_pos h]
  rw [collapseSTF_congr rest.length (rest.dropWhile isST).length (rest.dropWhile isST)
    (Nat.le_trans (List.dropWhile_sublist isST).length_le le_rfl) le_rfl]

theorem collapseST_cons_not (c : Char) (rest : List Char) (h : isST c = false) :
    collapseST (c :: rest) = c :: collapseST rest := by
  unfold collapseST
  rw [show (c :: rest).length = rest.length + 1 from rfl, collapseSTF_succ,
    if_neg (by rw [h]; exact Bool.false_ne_true)]

theorem collapseST_ne_nil (l : List Char) (h : l ≠ []) : collapseST l ≠ [] := by
  cases l with
  | nil => exact absurd rfl h
  | cons c rest =>
    by_cases hc : isST c = true
    · rw [collapseST_cons_st c rest hc]
      exact List.cons_ne_nil _ _
    · rw [collapseST_cons_not c rest (Bool.not_eq_true _ |>.mp hc)]
      exact List.cons_ne_nil _ _

/-- The head of the space-tab collapse, when the input head is not
space or tab, is that same character. -/
theorem collapseST_headNonWS (l : List Char) (h : headNonWS l) :
    headNonWS (collapseST l) := by
  cases l with
  | nil => intro c hc; cases hc
  | cons c rest =>
    have hws : isWS c = false := h c rfl
    have hst : isST c = false := by
      cases hs : isST c with
      | false => rfl
      | true => rw [isST_isWS c hs] at hws; cases hws
    rw [collapseST_cons_not c rest hst]
    intro z hz
    cases hz
    exact hws

/-- The last character survives the space-tab collapse when it is not
whitespace. -/
theorem collapseST_endsNonWS : ∀ (l : List Char), endsNonWS l →
    endsNonWS (collapseST l) := by
  have H : ∀ (n : Nat) (l : List Char), l.length ≤ n → endsNonWS l →
      endsNonWS (collapseST l) := by
    intro n
    induction n with
    | zero =>
      intro l h1 _
      have : l = [] := List.length_eq_zero.mp (Nat.le_zero.mp h1)
      subst this
      intro c hc
      cases hc
    | succ m ih =>
      intro l hlen hends
      cases l with
      | nil => intro c hc; cases hc
      | cons c rest =>
        by_cases hst : isST c = true
        · rw [collapseST_cons_st c rest hst]
          have hne : rest.dropWhile isST ≠ [] := by
            intro h0
            have hall : ∀ x ∈ rest, isST x = true := by
              intro x hx
              exact List.dropWhile_eq_nil_iff.mp h0 x hx
            cases rest with
            | nil =>
              have := hends c rfl
              rw [isST_isWS c hst] at this
              cases this
            | cons d r2 =>
              cases hz : (d :: r2).getLast? with
              | none =>
                rw [List.getLast?_eq_none_iff] at hz
                cases hz
              | some z =>
                have hzmem : z ∈ d :: r2 := List.mem_of_mem_getLast? hz
                have hzws := hends z (by rw [List.getLast?_cons_cons]; exact hz)
                rw [isST_isWS z (hall z hzmem)] at hzws
                cases hzws
          have hendsd : endsNonWS (rest.dropWhile isST) := by
            intro z hz
            apply hends z
            obtain ⟨t, ht⟩ := List.dropWhile_suffix (l := rest) isST
            have hrest : rest.getLast? = some z := by
              rw [← ht, List.getLast?_append_of_ne_nil _ hne]
              exact hz
            have hrne : rest ≠ [] := by
              intro h0
              subst h0
              cases hrest
            cases rest with
            | nil => exact absurd rfl hrne
            | cons d r2 =>
              rw [List.getLast?_cons_cons]
              exact hrest
          have hX := ih (rest.dropWhile isST)
            (by
              have hle : (rest.dropWhile isST).length ≤ rest.length :=
                (List.dropWhile_sublist isST).length_le
              simp only [List.length_cons] at hlen
              omega)
            hendsd
          intro z hz
          cases hXl : collapseST (rest.dropWhile isST) with
          | nil => exact absurd hXl (collapseST_ne_nil _ hne)
          | cons x xs =>
            rw [hXl, List.getLast?_cons_cons] at hz
            apply hX z
            rw [hXl]
            exact hz
        · have hst2 : isST c = false := Bool.not_eq_true _ |>.mp hst
          rw [collapseST_cons_not c rest hst2]
          cases rest with
          | nil =>
            intro z hz
            cases hz
            exact hends c rfl
          | cons d r2 =>
            have hends2 : endsNonWS (d :: r2) := by
              intro z hz
              exact hends z (by rw [List.getLast?_cons_cons]; exact hz)
            have hX := ih (d :: r2)
              (by simp only [List.length_cons] at hlen ⊢; omega) hends2
            intro z hz
            cases hXl : collapseST (d :: r2) with
            | nil => exact absurd hXl (collapseST_ne_nil _ (List.cons_ne_nil d r2))
            | cons x xs =>
              rw [hXl, List.getLast?_cons_cons] at hz
              apply hX z
              rw [hXl]
              exact hz
  intro l hends
  exact H l.length l le_rfl hends

/-- No two adjacent space-or-tab characters survive the third
replacement. -/
theorem collapseST_chain : ∀ (l : List Char),
    List.Chain' (fun x y => ¬(isST x = true ∧ isST y = true)) (collapseST l) := by
  have H : ∀ (n : Nat) (l : List Char), l.length ≤ n →
      List.Chain' (fun x y => ¬(isST x = true ∧ isST y = true)) (collapseST l) := by
    intro n
    induction n with
    | zero =>
      intro l h1
      have : l = [] := List.length_eq_zero.mp (Nat.le_zero.mp h1)
      subst this
      exact List.chain'_nil
    | succ m ih =>
      intro l hlen
      cases l with
      | nil => exact List.chain'_nil
      | cons c rest =>
        by_cases hst : isST c = true
        · rw [collapseST_cons_st c rest hst]
          rw [List.chain'_cons']
          constructor
          · intro b hb
            cases hy : rest.dropWhile isST with
            | nil =>
              rw [hy] at hb
              cases hb
            | cons d y2 =>
              have hd : isST d = false := dropWhile_head_false isST rest d (by rw [hy]; rfl)
              rw [hy, collapseST_cons_not d y2 hd] at hb
              cases hb
              intro hAnd
              rw [hd] at hAnd
              cases hAnd.2
          · exact ih (rest.dropWhile isST)
              (by
                have hle : (rest.dropWhile isST).length ≤ rest.length :=
                  (List.dropWhile_sublist isST).length_le
                simp only [List.length_cons] at hlen
                omega)
        · have hst2 : isST c = false := Bool.not_eq_true _ |>.mp hst
          rw [collapseST_cons_not c rest hst2]
          rw [List.chain'_cons']
          constructor
          · intro b _
            intro hAnd
            rw [hst2] at hAnd
            cases hAnd.1
          · exact ih rest (by simp only [List.length_cons] at hlen; omega)
  intro l
  exact H l.length l le_rfl

/-- The head, if any, is not a space or tab. -/
def headNonST (l : List Char) : Prop :=
  ∀ c, l.head? = some c → isST c = false

/-- The last character, if any, is not a space or tab. -/
def endsNonST (l : List Char) : Prop :=
  ∀ c, l.getLast? = some c → isST c = false

theorem dropWhile_all_append (p : Char → Bool) : ∀ (w r : List Char),
    (∀ c ∈ w, p c = true) → (∀ c, r.head? = some c → p c = false) →
    (w ++ r).dropWhile p = r := by
  intro w
  induction w with
  | nil =>
    intro r _ hr
    cases r with
    | nil => rfl
    | cons c r2 =>
      show (c :: r2).dropWhile p = c :: r2
      rw [List.dropWhile_cons, if_neg (by rw [hr c rfl]; exact Bool.false_ne_true)]
  | cons d w2 ih =>
    intro r hw hr
    rw [List.cons_append, List.dropWhile_cons,
      if_pos (hw d (List.mem_cons_self d w2)), ih r
        (fun c hc => hw c (List.mem_cons_of_mem d hc)) hr]

theorem dropWhile_stops_within (p : Char → Bool) : ∀ (a r : List Char),
    (∃ x ∈ a, p x = false) → (a ++ r).dropWhile p = a.dropWhile p ++ r := by
  intro a
  induction a with
  | nil =>
    intro r h
    obtain ⟨x, hx, _⟩ := h
    cases hx
  | cons c a2 ih =>
    intro r hex
    rw [List.cons_append, List.dropWhile_cons, List.dropWhile_cons]
    cases hc : p c with
    | false => rfl
    | true =>
      have hex2 : ∃ x ∈ a2, p x = false := by
        obtain ⟨x, hx, hpx⟩ := hex
        rcases List.mem_cons.mp hx with he | hm
        · subst he
          rw [hc] at hpx
          cases hpx
        · exact ⟨x, hm, hpx⟩
      rw [if_pos rfl, if_pos rfl]
      exact ih r hex2

/-- The third replacement distributes over a boundary whose left side
ends in a character that is not a space or tab. -/
theorem collapseST_append : ∀ (a r : List Char), endsNonST a →
    collapseST (a ++ r) = collapseST a ++ collapseST r := by
  have H : ∀ (n : Nat) (a r : List Char), a.length ≤ n → endsNonST a →
      collapseST (a ++ r) = collapseST a ++ collapseST r := by
    intro n
    induction n with
    | zero =>
      intro a r h1 _
      have : a = [] := List.length_eq_zero.mp (Nat.le_zero.mp h1)
      subst this
      rfl
    | succ m ih =>
      intro a r hlen hends
      cases a with
      | nil => rfl
      | cons c a2 =>
        cases a2 with
        | nil =>
          have hcst : isST c = false := hends c rfl
          show collapseST (c :: r) = collapseST [c] ++ collapseST r
          rw [collapseST_cons_not c r hcst, collapseST_cons_not c [] hcst]
          rfl
        | cons d a3 =>
          have hends2 : endsNonST (d :: a3) := by
            intro z hz
            exact hends z (by rw [List.getLast?_cons_cons]; exact hz)
          have hlen2 : (d :: a3).length ≤ m := by
            simp only [List.length_cons] at hlen ⊢
            omega
          have hex : ∃ x ∈ d :: a3, isST x = false := by
            cases hz : (d :: a3).getLast? with
            | none =>
              rw [List.getLast?_eq_none_iff] at hz
              cases hz
            | some z =>
              exact ⟨z, List.mem_of_mem_getLast? hz, hends2 z hz⟩
          by_cases hst : isST c = true
          · have hne : (d :: a3).dropWhile isST ≠ [] := by
              intro h0
              obtain ⟨x, hx, hpx⟩ := hex
              rw [List.dropWhile_eq_nil_iff.mp h0 x hx] at hpx
              cases hpx
            have hendsd : endsNonST ((d :: a3).dropWhile isST) := by
              intro z hz
              apply hends2 z
              obtain ⟨t, ht⟩ := List.dropWhile_suffix (l := d :: a3) isST
              rw [← ht, List.getLast?_append_of_ne_nil _ hne]
              exact hz
            have hlend : ((d :: a3).dropWhile isST).length ≤ m := by
              have hle : ((d :: a3).dropWhile isST).length ≤ (d :: a3).length :=
                (List.dropWhile_sublist isST).length_le
              omega
            show collapseST (c :: ((d :: a3) ++ r))
              = collapseST (c :: (d :: a3)) ++ collapseST r
            rw [collapseST_cons_st c _ hst, collapseST_cons_st c _ hst,
              dropWhile_stops_within isST (d :: a3) r hex,
              ih ((d :: a3).dropWhile isST) r hlend hendsd]
            rfl
          · have hst2 : isST c = false := Bool.not_eq_true _ |>.mp hst
            show collapseST (c :: ((d :: a3) ++ r))
              = collapseST (c :: (d :: a3)) ++ collapseST r
            rw [collapseST_cons_not c _ hst2, collapseST_cons_not c _ hst2,
              ih (d :: a3) r hlen2 hends2]
            rfl
  intro a r hends
  exact H a.length a r le_rfl hends

/-- A non-empty run of spaces and tabs at a non-space-tab boundary
becomes exactly one space. -/
theorem collapseST_run : ∀ (w b : List Char),
    (∀ c ∈ w, isST c = true) → w ≠ [] → headNonST b →
    collapseST (w ++ b) = ' ' :: collapseST b := by
  intro w b hw hne hb
  cases w with
  | nil => exact absurd rfl hne
  | cons c w2 =>
    rw [List.cons_append, collapseST_cons_st c _ (hw c (List.mem_cons_self c w2)),
      dropWhile_all_append isST w2 b
        (fun x hx => hw x (List.mem_cons_of_mem c hx)) hb]

/-- C1.  The cleanup normalization of rendered output: (i) the first
replacement rewrites each maximal whitespace run at non-whitespace
boundaries to `collapseRun` of it, leaving the rest untouched; (ii) a run
with three or more newlines ends with exactly two newlines, any other
run keeps its count; (iii, iv) the final output is trimmed: its first
and last characters are not whitespace; (v) no two adjacent space-or-tab
characters survive; (vi) the third replacement rewrites each non-empty
maximal space-tab run to a single space; (vii) a successful
`renderTemplate` returns exactly `cleanupOutput` of the engine's raw
output; (viii) every successful `generatePrompt` output is the cleanup
of some raw render. -/
theorem cleanupOutput_normalization :
    (∀ a w b : List Char, endsNonWS a → (∀ c ∈ w, isWS c = true) → headNonWS b →
      collapseNewlines (a ++ (w ++ b))
        = collapseNewlines a ++ (collapseRun w ++ collapseNewlines b)) ∧
    (∀ w : List Char,
      (collapseRun w).count '\n' = if 3 ≤ w.count '\n' then 2 else w.count '\n') ∧
    (∀ (l : List Char) (c : Char), (cleanupOutput l).head? = some c → isWS c = false) ∧
    (∀ (l : List Char) (c : Char), (cleanupOutput l).getLast? = some c → isWS c = false) ∧
    (∀ l : List Char,
      List.Chain' (fun x y => ¬(isST x = true ∧ isST y = true)) (cleanupOutput l)) ∧
    (∀ a w b : List Char, endsNonST a → (∀ c ∈ w, isST c = true) → w ≠ [] → headNonST b →
      collapseST (a ++ (w ++ b)) = collapseST a ++ ' ' :: collapseST b) ∧
    (∀ (eval : String → TemplateContext → Option String) (compiled : String)
        (context : TemplateContext) (output : String),
      renderTemplate eval compiled context = .ok output →
      ∃ raw, eval compiled context = some raw ∧ output = cleanupOutputStr raw) ∧
    (∀ (gen : TemplateGenerator) (env : HandlebarsEnv) (tc : TemplateConfig)
        (params : List (String × JSPrim)) (opts : GenerationOptions)
        (eval : String → TemplateContext → Option String) (t : Nat),
      ((generatePrompt gen env tc params opts eval t).1).success = true →
      ∃ raw, ((generatePrompt gen env tc params opts eval t).1).output
        = cleanupOutputStr raw) := by
  refine ⟨?_, collapseRun_count, ?_, ?_, ?_, ?_, ?_, ?_⟩
  · intro a w b ha hw hb
    rw [collapseNewlines_append a (w ++ b) ha, collapseNewlines_ws_run w b hw hb]
  · intro l c h
    exact collapseST_headNonWS _ (trimWS_headNonWS _) c h
  · intro l c h
    exact collapseST_endsNonWS _ (trimWS_endsNonWS _) c h
  · intro l
    exact collapseST_chain _
  · intro a w b ha hw hne hb
    rw [collapseST_append a (w ++ b) ha, collapseST_run w b hw hne hb]
  · intro eval compiled context output h
    unfold renderTemplate at h
    cases he : eval compiled context with
    | none =>
      rw [he] at h
      cases h
    | some raw =>
      rw [he] at h
      cases h
      exact ⟨raw, rfl, rfl⟩
  · intro gen env tc params opts eval t h
    rcases generatePrompt_failed_or_rendered gen env tc params opts eval t with
      ⟨msg, hm⟩ | ⟨compiled, context, raw, he, hm⟩
    · rw [hm] at h
      cases h
    · exact ⟨raw, by rw [hm]⟩

theorem cleanupOutput_normalization_witness :
    collapseNewlines (['x'] ++ (['\n', '\n', '\n'] ++ ['y']))
      = collapseNewlines ['x'] ++ (collapseRun ['\n', '\n', '\n'] ++ collapseNewlines ['y']) ∧
    (collapseRun ['\n', ' ', '\n', '\n']).count '\n'
      = (if 3 ≤ (['\n', ' ', '\n', '\n'] : List Char).count '\n' then 2
         else (['\n', ' ', '\n', '\n'] : List Char).count '\n') ∧
    isWS 'a' = false ∧
    isWS 'a' = false ∧
    List.Chain' (fun x y => ¬(isST x = true ∧ isST y = true))
      (cleanupOutput [' ', 'a', ' ', ' ', 'b']) ∧
    collapseST (['x'] ++ ([' ', '\t'] ++ ['y']))
      = collapseST ['x'] ++ ' ' :: collapseST ['y'] ∧
    (∃ raw, (fun (_ : String) (_ : TemplateContext) => some "a  b") "t" emptyContext
        = some raw ∧ cleanupOutputStr "a  b" = cleanupOutputStr raw) ∧
    (∃ raw, ((generatePrompt ⟨⟨none, none, none, none, none⟩, [], []⟩ ⟨[]⟩
        ⟨"t", "d", "body", []⟩ [] ⟨none, none, none, none, none⟩
        (fun _ _ => some "ok") 3).1).output = cleanupOutputStr raw) := by
  have h := cleanupOutput_normalization
  refine ⟨?_, h.2.1 _, ?_, ?_, h.2.2.2.2.1 _, ?_, ?_, ?_⟩
  · exact h.1 ['x'] ['\n', '\n', '\n'] ['y']
      (fun c hc => by cases hc; rfl) (by decide) (fun c hc => by cases hc; rfl)
  · exact h.2.2.1 [' ', 'a'] 'a' rfl
  · exact h.2.2.2.1 ['a', ' '] 'a' rfl
  · exact h.2.2.2.2.2.1 ['x'] [' ', '\t'] ['y']
      (fun c hc => by cases hc; rfl) (by decide) (by decide)
      (fun c hc => by cases hc; rfl)
  · exact h.2.2.2.2.2.2.1 (fun _ _ => some "a  b") "t" emptyContext
      (cleanupOutputStr "a  b") rfl
  · exact h.2.2.2.2.2.2.2 ⟨⟨none, none, none, none, none⟩, [], []⟩ ⟨[]⟩
      ⟨"t", "d", "body", []⟩ [] ⟨none, none, none, none, none⟩
      (fun _ _ => some "ok") 3 rfl

end PromptCLI
